import Mathlib

/-!
# Read-through cache layer of gin_demo (`pkg/cache/manager.go`)

A shallow embedding of the cache manager: key construction, TTL jitter,
`TakeByID`, `TakeByIndex`, `ExecByID` and `ExecByIDWithIndexes`; of the
repository code built on it (`WithTxOptions`, `ExecInTx`, `UpdateUser`,
`CreateUser`, `CountUsers` in `internal/repository`); of the task lock of
`pkg/task/scheduler.go`; and of the pure parts of the layers above: request
validation, pagination, the mapping of business errors to HTTP statuses, the
token refresh and role checks of `pkg/auth`, and `Register` and
`ChangePassword` of the user service.

The Redis client, the `math/rand` source, the JSON codec of the cached type and
the caller's closures are collaborators of the manager.  They appear here as

* `World`: the keyspace of the store with a clock, the sequence of commands
  and callbacks issued so far, and the metric increments;
* `Net`: which store command (by sequence number) fails, and with what error;
* raw random draws passed to `getJitterTTL`;
* `Codec T`: `json.Marshal` / `json.Unmarshal` for the cached type `T`;
* the outcome of a closure (`Except GoError T`, `Option GoError`).

Durations are `time.Duration` values: signed 64-bit nanosecond counts.
-/

namespace GinDemo

/-! ## Go values -/

/-- Go `error` values that reach the cache manager.  `errNoRows` is
`sql.ErrNoRows`; `wrap msg inner` is `fmt.Errorf(msg + "%w", inner)`; `other`
is any other error, told apart by its message. -/
inductive GoError where
  | errNoRows
  | other (msg : String)
  | wrap (msg : String) (inner : GoError)
  deriving DecidableEq, Repr

/-- The test `errors.Is(err, sql.ErrNoRows)`: follows the `%w` chain. -/
def errorsIsNoRows : GoError → Bool
  | .errNoRows => true
  | .other _ => false
  | .wrap _ inner => errorsIsNoRows inner

/-- Result of running Go code that may panic instead of returning. -/
inductive Run (α : Type) where
  | ok (a : α)
  | panic (msg : String)
  deriving DecidableEq, Repr

/-- Values passed as `any` to the key builders and rendered with `%v`. -/
inductive AnyVal where
  | int (n : Int)
  | str (s : String)
  deriving DecidableEq, Repr

/-- The rendering `fmt.Sprintf("%v", v)`. -/
def fmtV : AnyVal → String
  | .int n => toString n
  | .str s => s

/-- Reduction of an integer to the `int64` range (two's complement). -/
def wrapInt64 (x : Int) : Int := (x + 2 ^ 63) % 2 ^ 64 - 2 ^ 63

/-- One second, `time.Second`, in nanoseconds. -/
def Second : Int := 1000000000

/-- One minute, `time.Minute`, in nanoseconds. -/
def Minute : Int := 60 * Second

/-- The placeholder stored when the database has no such record. -/
def NotFoundPlaceholder : String := "*"

/-- Expiry of the placeholder: `5 * time.Minute`. -/
def DefaultNotFoundTTL : Int := 5 * Minute

/-- `rand.Int63n(n)`: panics when `n <= 0`, otherwise a value in `[0, n)`.
The argument `r` is the raw draw that the generator accepts. -/
def Int63n (n : Int) (r : Nat) : Run Int :=
  if n ≤ 0 then .panic "invalid argument to Int63n" else .ok ((r : Int) % n)

/-- JSON codec of the cached type.  `marshal` is `json.Marshal` (`none` when it
returns an error, in which case the byte slice is nil).  `unmarshal s d` is
`json.Unmarshal([]byte(s), &data)` run on a variable holding `d`: the new
content of the variable and whether the returned error is nil. -/
structure Codec (T : Type) where
  zero : T
  marshal : T → Option String
  unmarshal : String → T → T × Bool

/-! ## The store -/

/-- A stored string with the expiration given to `SET` and the time of the
write. -/
structure Entry where
  value : String
  ttl : Int
  setAt : Nat
  deriving DecidableEq, Repr

/-- An entry written with a positive expiration is readable strictly before
`setAt + ttl`; a non-positive expiration sets no expiry. -/
def Entry.live (e : Entry) (now : Nat) : Bool :=
  decide (e.ttl ≤ 0) || decide ((now : Int) < (e.setAt : Int) + e.ttl)

/-- What the code does to its collaborators, in order: store commands, calls
of the caller's functions (`query`, `indexQuery`, `exec`, `txFn`, `run`) and the
steps of a database transaction. -/
inductive Event where
  | get (key : String)
  | set (key value : String) (ttl : Int)
  | del (keys : List String)
  | query
  | indexQuery
  | exec
  | setNX (key value : String) (ttl : Int)
  | run
  | txBegin
  | txFn
  | txCommit
  | txRollback
  deriving DecidableEq, Repr

/-- The store, its clock, the number of store commands issued, the events so
far and the metric increments (counter name followed by its labels). -/
structure World where
  entries : List (String × Entry)
  now : Nat
  ops : Nat
  log : List Event
  metrics : List (List String)
  deriving DecidableEq, Repr

/-- Failure pattern of the store: `net n = some e` when the command with
sequence number `n` fails with error `e`. -/
abbrev Net := Nat → Option GoError

/-- First entry stored under `key`. -/
def find (key : String) : List (String × Entry) → Option Entry
  | [] => none
  | (k, e) :: rest => if k = key then some e else find key rest

/-- Removal of every entry whose key is listed. -/
def erase (keys : List String) (es : List (String × Entry)) : List (String × Entry) :=
  es.filter (fun p => !(keys.contains p.1))

/-- The value a successful `GET key` returns at the current time. -/
def World.read (w : World) (key : String) : Option String :=
  match find key w.entries with
  | some e => if e.live w.now then some e.value else none
  | none => none

/-- Time passes by `d` nanoseconds. -/
def World.advance (w : World) (d : Nat) : World :=
  { w with now := w.now + d }

/-- Records an event. -/
def World.emit (w : World) (e : Event) : World :=
  { w with log := w.log ++ [e] }

/-- Records a store command: the event and the sequence number. -/
def World.issue (w : World) (e : Event) : World :=
  { w with ops := w.ops + 1, log := w.log ++ [e] }

/-- Increments a counter. -/
def World.count (w : World) (m : List String) : World :=
  { w with metrics := w.metrics ++ [m] }

/-- `rdb.Get(ctx, key).Result()`: `none` stands for a non-nil error, which is
`redis.Nil` for a missing or expired key and the store error on failure. -/
def World.Get (net : Net) (w : World) (key : String) : Option String × World :=
  match net w.ops with
  | some _ => (none, w.issue (.get key))
  | none => (w.read key, w.issue (.get key))

/-- `rdb.Set(ctx, key, value, ttl).Err()`. -/
def World.Set (net : Net) (w : World) (key value : String) (ttl : Int) :
    Option GoError × World :=
  match net w.ops with
  | some e => (some e, w.issue (.set key value ttl))
  | none =>
    (none, { w.issue (.set key value ttl) with
      entries := (key, Entry.mk value ttl w.now) :: erase [key] w.entries })

/-- `rdb.Del(ctx, keys...).Err()`. -/
def World.Del (net : Net) (w : World) (keys : List String) : Option GoError × World :=
  match net w.ops with
  | some e => (some e, w.issue (.del keys))
  | none => (none, { w.issue (.del keys) with entries := erase keys w.entries })

/-! ## Metrics (`pkg/metrics/cache.go`) -/

/-- `metrics.RecordCacheHit`. -/
def RecordCacheHit (w : World) (entity : String) : World :=
  (w.count ["cache_hits_total", entity]).count ["cache_operations_total", "get", entity]

/-- `metrics.RecordCacheMiss`. -/
def RecordCacheMiss (w : World) (entity : String) : World :=
  (w.count ["cache_misses_total", entity]).count ["cache_operations_total", "get", entity]

/-- `metrics.RecordCacheSet`. -/
def RecordCacheSet (w : World) (entity : String) : World :=
  w.count ["cache_operations_total", "set", entity]

/-- `metrics.RecordCacheDelete`. -/
def RecordCacheDelete (w : World) (entity : String) : World :=
  w.count ["cache_operations_total", "delete", entity]

/-- `metrics.RecordCacheError`. -/
def RecordCacheError (w : World) (operation errorType : String) : World :=
  w.count ["cache_errors_total", operation, errorType]

/-! ## The manager -/

/-- `Manager.BuildKey`: `fmt.Sprintf("cache:%s:%v", entity, id)`. -/
def BuildKey (entity : String) (id : AnyVal) : String :=
  "cache:" ++ entity ++ ":" ++ fmtV id

/-- `Manager.BuildIndexKey`: `fmt.Sprintf("cache:%s:%s:%v", entity, field, value)`. -/
def BuildIndexKey (entity field : String) (value : AnyVal) : String :=
  "cache:" ++ entity ++ ":" ++ field ++ ":" ++ fmtV value

/-- `Manager.getJitterTTL`: a non-positive base is returned as it is; otherwise
up to 20% of the base and 0 to 29 whole seconds are added, in `int64`
arithmetic.  `r1` and `r2` are the two raw draws. -/
def getJitterTTL (baseTTL : Int) (r1 r2 : Nat) : Run Int :=
  if baseTTL ≤ 0 then .ok baseTTL
  else
    match Int63n (Int.tdiv baseTTL 5) r1 with
    | .panic msg => .panic msg
    | .ok jitter =>
      match Int63n 30 r2 with
      | .panic msg => .panic msg
      | .ok n =>
        let noise := wrapInt64 (n * Second)
        .ok (wrapInt64 (wrapInt64 (baseTTL + jitter) + noise))

/-- The closure that `TakeByID` hands to `sfGroup.Do`: the double check, then
the loader, then the write of the result or of the placeholder. -/
def takeByIDLoad {T : Type} (c : Codec T) (net : Net) (w : World) (key entity : String)
    (baseTTL : Int) (r1 r2 : Nat) (queryFn : Except GoError T) :
    World × Run (Except GoError String) :=
  match w.Get net key with
  | (some v, w1) => (w1, .ok (.ok v))
  | (none, w1) =>
    let w2 := w1.emit .query
    match queryFn with
    | .error dbErr =>
      let w3 := if errorsIsNoRows dbErr then
          (w2.Set net key NotFoundPlaceholder DefaultNotFoundTTL).2 else w2
      (w3, .ok (.error dbErr))
    | .ok res =>
      let bs := (c.marshal res).getD ""
      match getJitterTTL baseTTL r1 r2 with
      | .panic msg => (w2, .panic msg)
      | .ok ttl =>
        match w2.Set net key bs ttl with
        | (none, w3) => (RecordCacheSet w3 entity, .ok (.ok bs))
        | (some _, w3) => (RecordCacheError w3 "set" "write_error", .ok (.ok bs))

/-- `sfGroup.Do(key, fn)` for a caller that has no concurrent caller on the
same key: the function runs and its result is handed back. -/
def sfGroupDo {α : Type} (_key : String) (fn : α) : α := fn

/-- The part of `TakeByID` after the first read: the coalesced load and the
decoding of its result into `data`. -/
def takeByIDMiss {T : Type} (c : Codec T) (net : Net) (w : World) (key entity : String)
    (baseTTL : Int) (r1 r2 : Nat) (queryFn : Except GoError T) (data : T) :
    World × Run (T × Option GoError) :=
  match sfGroupDo key (takeByIDLoad c net w key entity baseTTL r1 r2 queryFn) with
  | (w1, .panic msg) => (w1, .panic msg)
  | (w1, .ok (.error err)) => (w1, .ok (data, some err))
  | (w1, .ok (.ok s)) =>
    if s = NotFoundPlaceholder then (w1, .ok (data, some .errNoRows))
    else (w1, .ok ((c.unmarshal s data).1, none))

/-- `TakeByID`: read through the cache by primary key. -/
def TakeByID {T : Type} (c : Codec T) (net : Net) (w : World) (entity : String) (id : AnyVal)
    (baseTTL : Int) (r1 r2 : Nat) (queryFn : Except GoError T) :
    World × Run (T × Option GoError) :=
  let key := BuildKey entity id
  let data := c.zero
  match w.Get net key with
  | (some val, w1) =>
    let w2 := RecordCacheHit w1 entity
    if val = NotFoundPlaceholder then (w2, .ok (data, some .errNoRows))
    else
      match c.unmarshal val data with
      | (d, true) => (w2, .ok (d, none))
      | (d, false) =>
        let w3 := (w2.Del net [key]).2
        let w4 := RecordCacheError w3 "get" "deserialization_error"
        takeByIDMiss c net w4 key entity baseTTL r1 r2 queryFn d
  | (none, w1) =>
    takeByIDMiss c net (RecordCacheMiss w1 entity) key entity baseTTL r1 r2 queryFn data

/-- The closure that `TakeByIndex` hands to `sfGroup.Do` for the index key. -/
def takeByIndexLoad {ID : Type} (toAny : ID → AnyVal) (net : Net) (w : World)
    (indexKey : String) (baseTTL : Int) (r1 r2 : Nat) (indexQueryFn : Except GoError ID) :
    World × Run (Except GoError String) :=
  match w.Get net indexKey with
  | (some v, w1) => (w1, .ok (.ok v))
  | (none, w1) =>
    let w2 := w1.emit .indexQuery
    match indexQueryFn with
    | .error dbErr =>
      let w3 := if errorsIsNoRows dbErr then
          (w2.Set net indexKey NotFoundPlaceholder DefaultNotFoundTTL).2 else w2
      (w3, .ok (.error dbErr))
    | .ok id =>
      let idStr := fmtV (toAny id)
      match getJitterTTL (wrapInt64 (baseTTL * 2)) r1 r2 with
      | .panic msg => (w2, .panic msg)
      | .ok ttl => ((w2.Set net indexKey idStr ttl).2, .ok (.ok idStr))

/-- `TakeByIndex`: resolve the index key to an identifier, then read through
the cache by that identifier.  `r1 r2` are the draws for the index entry and
`r3 r4` those for the primary entry. -/
def TakeByIndex {T ID : Type} (c : Codec T) (toAny : ID → AnyVal) (net : Net) (w : World)
    (entity field : String) (value : AnyVal) (baseTTL : Int) (r1 r2 r3 r4 : Nat)
    (indexQueryFn : Except GoError ID) (dataQueryFn : ID → Except GoError T)
    (idConverter : String → Except GoError ID) : World × Run (T × Option GoError) :=
  let indexKey := BuildIndexKey entity field value
  let data := c.zero
  match sfGroupDo indexKey (takeByIndexLoad toAny net w indexKey baseTTL r1 r2 indexQueryFn) with
  | (w1, .panic msg) => (w1, .panic msg)
  | (w1, .ok (.error err)) => (w1, .ok (data, some err))
  | (w1, .ok (.ok idStr)) =>
    if idStr = NotFoundPlaceholder then (w1, .ok (data, some .errNoRows))
    else
      match idConverter idStr with
      | .error convertErr => (w1, .ok (data, some (.wrap "ID conversion failed: " convertErr)))
      | .ok id => TakeByID c net w1 entity (toAny id) baseTTL r3 r4 (dataQueryFn id)

/-- `Manager.ExecByID`: run the write, then delete the primary entry. -/
def ExecByID (net : Net) (w : World) (entity : String) (id : AnyVal)
    (execFn : Option GoError) : World × Option GoError :=
  let w1 := w.emit .exec
  match execFn with
  | some err => (w1, some err)
  | none =>
    match w1.Del net [BuildKey entity id] with
    | (none, w2) => (RecordCacheDelete w2 entity, none)
    | (some err, w2) => (RecordCacheError w2 "delete" "delete_error", some err)

/-- `Manager.ExecByIDWithIndexes`: run the write, then delete the primary entry
and the listed index entries with one command. -/
def ExecByIDWithIndexes (net : Net) (w : World) (entity : String) (id : AnyVal)
    (indexes : List String) (execFn : Option GoError) : World × Option GoError :=
  let w1 := w.emit .exec
  match execFn with
  | some err => (w1, some err)
  | none =>
    let keys := [BuildKey entity id] ++ indexes
    match w1.Del net keys with
    | (none, w2) => (keys.foldl (fun acc _ => RecordCacheDelete acc entity) w2, none)
    | (some err, w2) => (RecordCacheError w2 "delete" "batch_delete_error", some err)

/-! ## Transactions and writes of the repository (`internal/repository`) -/

/-- `BaseRepository.WithTxOptions`.  `beginTx` and `commit` are the results of
`db.BeginTx` and `tx.Commit`; `fn` is the function run on the transaction, a
closure that acts on the world and returns, fails or panics.  The deferred
function rolls back after a panic, which it raises again, and after an error
of `fn`; the result of `Rollback` is dropped. -/
def WithTxOptions (beginTx commit : Option GoError) (w : World)
    (fn : World → World × Run (Option GoError)) : World × Run (Option GoError) :=
  let w1 := w.emit .txBegin
  match beginTx with
  | some err => (w1, .ok (some err))
  | none =>
    match fn w1 with
    | (w2, .panic msg) => (w2.emit .txRollback, .panic msg)
    | (w2, .ok (some err)) => (w2.emit .txRollback, .ok (some err))
    | (w2, .ok none) => (w2.emit .txCommit, .ok commit)

/-- `BaseRepository.WithTx`: `WithTxOptions` with the default options. -/
def WithTx (beginTx commit : Option GoError) (w : World)
    (fn : World → World × Run (Option GoError)) : World × Run (Option GoError) :=
  WithTxOptions beginTx commit w fn

/-- `BaseRepository.ExecInTx`: inside a transaction, run `fn` and, when it
succeeds, `ExecByID` with a write function that does nothing; the result of
`ExecByID` is the result of the function run on the transaction. -/
def ExecInTx (net : Net) (beginTx commit : Option GoError) (w : World) (entity : String)
    (id : AnyVal) (fn : World → World × Run (Option GoError)) :
    World × Run (Option GoError) :=
  WithTx beginTx commit w (fun w1 =>
    match fn (w1.emit .txFn) with
    | (w2, .panic msg) => (w2, .panic msg)
    | (w2, .ok (some err)) => (w2, .ok (some err))
    | (w2, .ok none) =>
      match ExecByID net w2 entity id none with
      | (w3, err) => (w3, .ok err))

/-- The fields of `UpdateUserParams` that `UpdateUser` reads. -/
structure UpdateUserParams where
  ID : Int
  Username : String
  Email : String
  deriving DecidableEq, Repr

/-- The fields of the row `queries.GetUserByID` returns that `UpdateUser`
reads. -/
structure UserRow where
  Username : String
  Email : String
  deriving DecidableEq, Repr

/-- `UserRepository.UpdateUser`.  `oldUser` is the result of
`queries.GetUserByID` and `update` that of `queries.UpdateUser`. -/
def UpdateUser (net : Net) (w : World) (params : UpdateUserParams)
    (oldUser : Except GoError UserRow) (update : Option GoError) : World × Option GoError :=
  let w1 := w.emit .query
  match oldUser with
  | .error err => (w1, some (.wrap "repository: get old user: " err))
  | .ok old =>
    let indexes := [
      BuildIndexKey "user" "email" (.str old.Email),
      BuildIndexKey "user" "email" (.str params.Email),
      BuildIndexKey "user" "username" (.str old.Username),
      BuildIndexKey "user" "username" (.str params.Username)]
    ExecByIDWithIndexes net w1 "user" (.int params.ID) indexes update

/-! ## The task scheduler (`pkg/task/scheduler.go`) -/

/-- `rdb.SetNX(ctx, key, value, ttl).Result()`: the key is created when no
readable entry is stored under it. -/
def World.SetNX (net : Net) (w : World) (key value : String) (ttl : Int) :
    Except GoError Bool × World :=
  match net w.ops with
  | some e => (.error e, w.issue (.setNX key value ttl))
  | none =>
    match w.read key with
    | some _ => (.ok false, w.issue (.setNX key value ttl))
    | none =>
      (.ok true, { w.issue (.setNX key value ttl) with
        entries := (key, Entry.mk value ttl w.now) :: erase [key] w.entries })

/-- The fields of `Scheduler` that `runTask` reads. -/
structure Scheduler where
  lockPrefix : String
  lockTTL : Int
  deriving DecidableEq, Repr

/-- `NewScheduler`: the defaults for the lock prefix and the lock TTL. -/
def NewScheduler (lockPrefix : String) (lockTTL : Int) : Scheduler :=
  { lockPrefix := if lockPrefix = "" then "task:lock:" else lockPrefix,
    lockTTL := if lockTTL = 0 then 5 * Minute else lockTTL }

/-- A `Task`: its name, its timeout, the outcome of `Run` and the time `Run`
takes in nanoseconds. -/
structure Task where
  name : String
  timeout : Int
  run : Run (Option GoError)
  elapsed : Nat

/-- `Scheduler.acquireLock`: the value is `time.Now().Unix()`. -/
def acquireLock (s : Scheduler) (net : Net) (w : World) (key : String) (ttl : Int) :
    Except GoError Bool × World :=
  let ttl := if ttl = 0 then s.lockTTL else ttl
  w.SetNX net key (toString (w.now / 1000000000)) ttl

/-- `Scheduler.releaseLock`. -/
def releaseLock (net : Net) (w : World) (key : String) : Option GoError × World :=
  w.Del net [key]

/-- `Scheduler.runTask`: the deferred release runs when `Run` returns and when
it panics; log lines are left out. -/
def runTask (s : Scheduler) (net : Net) (w : World) (task : Task) : World × Run Unit :=
  let lockKey := s.lockPrefix ++ task.name
  match acquireLock s net w lockKey task.timeout with
  | (.error _, w1) => (w1, .ok ())
  | (.ok false, w1) => (w1, .ok ())
  | (.ok true, w1) =>
    let w2 := (w1.emit .run).advance task.elapsed
    match task.run with
    | .panic msg => ((releaseLock net w2 lockKey).2, .panic msg)
    | .ok _ => ((releaseLock net w2 lockKey).2, .ok ())

/-! ## Request validation (`pkg/validator/validator.go`) -/

/-- Reduction of an integer to the `int32` range (two's complement). -/
def wrapInt32 (x : Int) : Int := (x + 2 ^ 31) % 2 ^ 32 - 2 ^ 31

/-- The value of a decimal digit. -/
def digitValue (c : Char) : Option Nat :=
  if '0' ≤ c ∧ c ≤ '9' then some (c.toNat - 48) else none

/-- The number written by a run of decimal digits, continuing from `acc`;
`none` when a character is not a digit. -/
def parseDigits : List Char → Nat → Option Nat
  | [], acc => some acc
  | c :: cs, acc =>
    match digitValue c with
    | some d => parseDigits cs (acc * 10 + d)
    | none => none

/-- The magnitude after the optional sign: at least one digit, digits only. -/
def parseMagnitude : List Char → Option Nat
  | [] => none
  | cs => parseDigits cs 0

/-- `strconv.ParseInt(s, 10, 64)`: the value and whether the error is nil.  A
text that is no number gives 0 with an error; a number outside `int64` gives
the nearest bound with an error. -/
def ParseInt (s : String) : Int × Bool :=
  match s.data with
  | '-' :: cs =>
    match parseMagnitude cs with
    | none => (0, false)
    | some n => if n ≤ 2 ^ 63 then (-(n : Int), true) else (-2 ^ 63, false)
  | '+' :: cs =>
    match parseMagnitude cs with
    | none => (0, false)
    | some n => if n < 2 ^ 63 then ((n : Int), true) else (2 ^ 63 - 1, false)
  | cs =>
    match parseMagnitude cs with
    | none => (0, false)
    | some n => if n < 2 ^ 63 then ((n : Int), true) else (2 ^ 63 - 1, false)

/-- `strconv.Atoi(s)` with the error dropped, as in `n, _ := strconv.Atoi(s)`. -/
def Atoi (s : String) : Int := (ParseInt s).1

/-- `ValidateID`: `idStr` is the path parameter `c.Param(paramName)`. -/
def ValidateID (idStr : String) : Int × Bool :=
  match ParseInt idStr with
  | (id, ok) => if !ok || decide (id ≤ 0) then (0, false) else (id, true)

/-- `ValidatePagination`. -/
def ValidatePagination (page pageSize : Int) : Int × Int :=
  let page := if page ≤ 0 then 1 else page
  let pageSize := if pageSize ≤ 0 then 20 else pageSize
  let pageSize := if pageSize > 100 then 100 else pageSize
  (page, pageSize)

/-! ## Pagination of list requests (`internal/response/pagination.go`) -/

/-- `PaginationRequest`. -/
structure PaginationRequest where
  Page : Int
  PageSize : Int
  Offset : Int
  Limit : Int
  deriving DecidableEq, Repr

/-- `GetPagination`: the arguments are the query values `page`, `size`,
`offset` and `limit` (the empty string when absent). -/
def GetPagination (pageQ sizeQ offsetQ limitQ : String) : PaginationRequest :=
  let page := Atoi pageQ
  let size := Atoi sizeQ
  let offset := Atoi offsetQ
  let limit := Atoi limitQ
  if page > 0 ∨ size > 0 then
    let page := if page < 1 then 1 else page
    let size := if size < 1 then 10 else if size > 100 then 100 else size
    { Page := page, PageSize := size, Offset := 0, Limit := 0 }
  else if offset ≥ 0 ∨ limit > 0 then
    let offset := if offset < 0 then 0 else offset
    let limit := if limit < 1 then 10 else if limit > 100 then 100 else limit
    let page := wrapInt64 (Int.tdiv offset limit + 1)
    let size := limit
    { Page := page, PageSize := size, Offset := offset, Limit := limit }
  else
    { Page := 1, PageSize := 10, Offset := 0, Limit := 0 }

/-- `PaginationRequest.GetOffset`: `int32((p.Page - 1) * p.PageSize)`. -/
def PaginationRequest.GetOffset (p : PaginationRequest) : Int :=
  wrapInt32 (wrapInt64 (wrapInt64 (p.Page - 1) * p.PageSize))

/-- `PaginationRequest.GetLimit`: `int32(p.PageSize)`. -/
def PaginationRequest.GetLimit (p : PaginationRequest) : Int :=
  wrapInt32 p.PageSize

/-! ## Roles and permissions (`pkg/auth/rbac.go`) -/

/-- `RoleGuest`. -/
def RoleGuest : String := "guest"

/-- `RoleUser`. -/
def RoleUser : String := "user"

/-- `RoleModerator`. -/
def RoleModerator : String := "moderator"

/-- `RoleAdmin`. -/
def RoleAdmin : String := "admin"

/-- `RoleSuperAdmin`. -/
def RoleSuperAdmin : String := "super_admin"

/-- `PermissionUserRead`. -/
def PermissionUserRead : String := "user:read"

/-- `PermissionUserWrite`. -/
def PermissionUserWrite : String := "user:write"

/-- `PermissionUserDelete`. -/
def PermissionUserDelete : String := "user:delete"

/-- `PermissionContentRead`. -/
def PermissionContentRead : String := "content:read"

/-- `PermissionContentWrite`. -/
def PermissionContentWrite : String := "content:write"

/-- `PermissionContentDelete`. -/
def PermissionContentDelete : String := "content:delete"

/-- `PermissionContentAudit`. -/
def PermissionContentAudit : String := "content:audit"

/-- `PermissionSystemConfig`. -/
def PermissionSystemConfig : String := "system:config"

/-- `PermissionSystemMonitor`. -/
def PermissionSystemMonitor : String := "system:monitor"

/-- The fields of `RBACClaims` that the permission checks read. -/
structure RBACClaims where
  UserID : Int
  Role : String
  Permissions : List String
  deriving DecidableEq, Repr

/-- `RBACClaims.hasImplicitPermission`. -/
def RBACClaims.hasImplicitPermission (c : RBACClaims) (permission : String) : Bool :=
  if c.Role = RoleSuperAdmin then true
  else if c.Role = RoleAdmin then decide (permission ≠ PermissionSystemConfig)
  else if c.Role = RoleModerator then
    decide (permission = PermissionContentRead) || decide (permission = PermissionContentAudit)
      || decide (permission = PermissionUserRead)
  else if c.Role = RoleUser then
    decide (permission = PermissionContentRead) || decide (permission = PermissionContentWrite)
      || decide (permission = PermissionUserRead)
  else if c.Role = RoleGuest then decide (permission = PermissionContentRead)
  else false

/-- `RBACClaims.HasPermission`. -/
def RBACClaims.HasPermission (c : RBACClaims) (permission : String) : Bool :=
  if c.Role = RoleSuperAdmin then true
  else if c.Permissions.contains permission then true
  else c.hasImplicitPermission permission

/-- `roleLevel`. -/
def roleLevel (role : String) : Int :=
  if role = RoleSuperAdmin then 100
  else if role = RoleAdmin then 80
  else if role = RoleModerator then 60
  else if role = RoleUser then 40
  else if role = RoleGuest then 0
  else -1

/-- `RBACClaims.GetRoleLevel`. -/
def RBACClaims.GetRoleLevel (c : RBACClaims) : Int :=
  if c.Role = RoleSuperAdmin then 100
  else if c.Role = RoleAdmin then 80
  else if c.Role = RoleModerator then 60
  else if c.Role = RoleUser then 40
  else if c.Role = RoleGuest then 0
  else -1

/-- `RBACClaims.HasHigherRoleThan`. -/
def RBACClaims.HasHigherRoleThan (c : RBACClaims) (role : String) : Bool :=
  decide (c.GetRoleLevel > roleLevel role)

/-! ## Tokens (`pkg/auth/jwt.go`, `pkg/auth/rbac.go`) -/

/-- `ErrInvalidToken`. -/
def ErrInvalidToken : GoError := .other "invalid token"

/-- `ErrExpiredToken`. -/
def ErrExpiredToken : GoError := .other "token expired"

/-- The test `errors.Is(err, target)` for a target that is a plain error value:
`err` or an error in its `%w` chain is the target. -/
def errorsIs : GoError → GoError → Bool
  | .wrap msg inner, target =>
    decide (GoError.wrap msg inner = target) || errorsIs inner target
  | err, target => decide (err = target)

/-- What `jwt.ParseWithClaims` finds in a token string: a token that passes
every check, a token with a valid signature whose only failure is expiry, or
a token refused for another reason. -/
inductive Parsed (C : Type) where
  | valid (claims : C)
  | expired (claims : C)
  | invalid (err : GoError)

/-- `Claims[T]`: the user id and the registered times, in seconds. -/
structure Claims (T : Type) where
  UserID : T
  ExpiresAt : Int
  IssuedAt : Int
  NotBefore : Int

/-- `JWTManager[T]`: the expiration in seconds, and the signing of claims with
the secret (`token.SignedString`). -/
structure JWTManager (T : Type) where
  expiration : Int
  sign : Claims T → Except GoError String

/-- `JWTManager.GenerateToken` at the time `now`. -/
def JWTManager.GenerateToken {T : Type} (m : JWTManager T) (now : Int) (userID : T) :
    String × Option GoError :=
  match m.sign ⟨userID, now + m.expiration, now, now⟩ with
  | .error err => ("", some (.wrap "failed to sign token: " err))
  | .ok tokenString => (tokenString, none)

/-- `JWTManager.ValidateToken`: the claims pointer (`none` for nil) and the
error.  An expired token gives nil claims and `ErrExpiredToken`; a refused
token gives nil claims and an error that wraps `ErrInvalidToken` (its message
also holds the text of the parse error, which is left out here); a token
without a parse error is valid and carries claims of the expected type. -/
def JWTManager.ValidateToken {T : Type} (_m : JWTManager T) (parsed : Parsed (Claims T)) :
    Option (Claims T) × Option GoError :=
  match parsed with
  | .expired _ => (none, some ErrExpiredToken)
  | .invalid _ => (none, some (.wrap "invalid token: " ErrInvalidToken))
  | .valid claims => (some claims, none)

/-- `JWTManager.RefreshToken`: reading `claims.UserID` through a nil pointer
panics. -/
def JWTManager.RefreshToken {T : Type} (m : JWTManager T) (now : Int)
    (parsed : Parsed (Claims T)) : Run (String × Option GoError) :=
  match m.ValidateToken parsed with
  | (claims, err) =>
    if err ≠ none ∧ (err.map (fun e => errorsIs e ErrExpiredToken)) ≠ some true then
      .ok ("", err)
    else
      match claims with
      | none => .panic "invalid memory address or nil pointer dereference"
      | some c => .ok (m.GenerateToken now c.UserID)

/-- The claims of an RBAC token: the permission claims and the registered
times, in seconds. -/
structure RBACTokenClaims where
  claims : RBACClaims
  ExpiresAt : Int
  IssuedAt : Int
  NotBefore : Int

/-- `RBACJWTManager`: the expiration in seconds and the signing of claims. -/
structure RBACJWTManager where
  expiration : Int
  sign : RBACTokenClaims → Except GoError String

/-- `RBACJWTManager.GenerateToken` at the time `now`. -/
def RBACJWTManager.GenerateToken (m : RBACJWTManager) (now : Int) (userID : Int)
    (role : String) (permissions : List String) : String × Option GoError :=
  match m.sign ⟨⟨userID, role, permissions⟩, now + m.expiration, now, now⟩ with
  | .error err => ("", some (.wrap "failed to sign token: " err))
  | .ok tokenString => (tokenString, none)

/-- `RBACJWTManager.ValidateToken`: the test `jwt.ErrTokenExpired != nil` holds
always, so every parse error gives nil claims and `ErrExpiredToken`. -/
def RBACJWTManager.ValidateToken (_m : RBACJWTManager) (parsed : Parsed RBACTokenClaims) :
    Option RBACTokenClaims × Option GoError :=
  match parsed with
  | .expired _ => (none, some ErrExpiredToken)
  | .invalid _ => (none, some ErrExpiredToken)
  | .valid claims => (some claims, none)

/-- `RBACJWTManager.RefreshToken`: the error is compared with `!=`. -/
def RBACJWTManager.RefreshToken (m : RBACJWTManager) (now : Int)
    (parsed : Parsed RBACTokenClaims) : Run (String × Option GoError) :=
  match m.ValidateToken parsed with
  | (claims, err) =>
    if err ≠ none ∧ err ≠ some ErrExpiredToken then .ok ("", err)
    else
      match claims with
      | none => .panic "invalid memory address or nil pointer dereference"
      | some c =>
        .ok (m.GenerateToken now c.claims.UserID c.claims.Role c.claims.Permissions)

/-! ## Business errors and responses (`pkg/errors`, `internal/response`) -/

/-- Errors above the repository: a business error `*errors.Error` with or
without an original error, an error of the lower layers, or an error wrapped
by `fmt.Errorf(msg + "%w", inner)`. -/
inductive AppError where
  | biz (code : Int) (message : String)
  | bizWrap (code : Int) (message : String) (inner : AppError)
  | plain (err : GoError)
  | wrap (msg : String) (inner : AppError)
  deriving DecidableEq, Repr

/-- The text `err.Error()` of an error of the lower layers. -/
def GoError.Error : GoError → String
  | .errNoRows => "sql: no rows in result set"
  | .other msg => msg
  | .wrap msg inner => msg ++ inner.Error

/-- The text `err.Error()`: a business error is written `[code] message`,
followed by its original error when it has one. -/
def AppError.Error : AppError → String
  | .biz code message => "[" ++ toString code ++ "] " ++ message
  | .bizWrap code message inner =>
    "[" ++ toString code ++ "] " ++ message ++ ": " ++ inner.Error
  | .plain err => err.Error
  | .wrap msg inner => msg ++ inner.Error

/-- `CodeOK`. -/
def CodeOK : Int := 0

/-- `CodeInvalidParams`. -/
def CodeInvalidParams : Int := 10001

/-- `CodeUnauthorized`. -/
def CodeUnauthorized : Int := 10002

/-- `CodeForbidden`. -/
def CodeForbidden : Int := 10003

/-- `CodeNotFound`. -/
def CodeNotFound : Int := 10004

/-- `CodeAlreadyExists`. -/
def CodeAlreadyExists : Int := 10005

/-- `CodeTooManyRequests`. -/
def CodeTooManyRequests : Int := 10006

/-- `CodeInvalidPassword`. -/
def CodeInvalidPassword : Int := 10007

/-- `CodeInternalError`. -/
def CodeInternalError : Int := 50001

/-- `CodeDatabaseError`. -/
def CodeDatabaseError : Int := 50002

/-- `CodeCacheError`. -/
def CodeCacheError : Int := 50003

/-- `Message`: the text of a code in `codeMessages`. -/
def Message (code : Int) : String :=
  if code = CodeOK then "success"
  else if code = CodeInvalidParams then "参数错误"
  else if code = CodeUnauthorized then "未授权"
  else if code = CodeForbidden then "禁止访问"
  else if code = CodeNotFound then "资源不存在"
  else if code = CodeAlreadyExists then "资源已存在"
  else if code = CodeTooManyRequests then "请求过于频繁"
  else if code = CodeInvalidPassword then "密码错误"
  else if code = CodeInternalError then "服务器内部错误"
  else if code = CodeDatabaseError then "数据库错误"
  else if code = CodeCacheError then "缓存错误"
  else "未知错误"

/-- `ErrInvalidParams`. -/
def ErrInvalidParams : AppError := .biz CodeInvalidParams (Message CodeInvalidParams)

/-- `ErrNotFound`. -/
def ErrNotFound : AppError := .biz CodeNotFound (Message CodeNotFound)

/-- `ErrAlreadyExists`. -/
def ErrAlreadyExists : AppError := .biz CodeAlreadyExists (Message CodeAlreadyExists)

/-- `ErrInvalidPassword`. -/
def ErrInvalidPassword : AppError := .biz CodeInvalidPassword (Message CodeInvalidPassword)

/-- `getHTTPStatus`. -/
def getHTTPStatus (code : Int) : Int :=
  if code = CodeOK then 200
  else if code = CodeInvalidParams then 400
  else if code = CodeUnauthorized then 401
  else if code = CodeForbidden then 403
  else if code = CodeNotFound then 404
  else if code = CodeAlreadyExists then 409
  else if code = CodeTooManyRequests then 429
  else if code = CodeInvalidPassword then 400
  else 500

/-- `Response`, without the data, which error responses leave out; an empty
`Error` is left out of the body. -/
structure Response where
  Code : Int
  Message : String
  Error : String
  deriving DecidableEq, Repr

/-- `Error`: the HTTP status and the body written for an error.  `debugMode` is
the test `gin.Mode() == gin.DebugMode`. -/
def Error (debugMode : Bool) (err : AppError) : Int × Response :=
  let bizErr : Int × String × Option AppError :=
    match err with
    | .biz code message => (code, message, none)
    | .bizWrap code message inner => (code, message, some inner)
    | other => (CodeInternalError, "服务器内部错误", some other)
  let httpStatus := getHTTPStatus bizErr.1
  let detail :=
    match debugMode, bizErr.2.2 with
    | true, some inner => inner.Error
    | _, _ => ""
  (httpStatus, { Code := bizErr.1, Message := bizErr.2.1, Error := detail })

/-! ## Users of the repository (`internal/repository/user_repository.go`) -/

/-- `User`: the avatar is `none` when the `sql.NullString` is not valid; times
are nanosecond counts. -/
structure User where
  ID : Int
  Username : String
  Email : String
  Password : String
  Avatar : Option String
  Status : Int
  CreatedAt : Int
  UpdatedAt : Int
  deriving DecidableEq, Repr

/-- The zero value `User{}`. -/
def User.zero : User := ⟨0, "", "", "", none, 0, 0, 0⟩

/-- The row that `queries.GetUserByID` returns. -/
structure GetUserByIDRow where
  ID : Int
  Username : String
  Email : String
  Avatar : Option String
  Status : Int
  CreatedAt : Int
  UpdatedAt : Int
  deriving DecidableEq, Repr

/-- `CreateUserParams`. -/
structure CreateUserParams where
  Username : String
  Email : String
  Password : String
  Avatar : Option String
  deriving DecidableEq, Repr

/-- `UserRepository.rowToUser`. -/
def rowToUser (id : Int) (username email password : String) (avatar : Option String)
    (status createdAt updatedAt : Int) : User :=
  { ID := id, Username := username, Email := email, Password := password, Avatar := avatar,
    Status := status, CreatedAt := createdAt, UpdatedAt := updatedAt }

/-- `UserRepository.GetUserByID`, through `GetByIDWithCache`: a read through
the cache whose loader turns the row of `queries.GetUserByID` into a `User`
with an empty password.  `row` is the result of the query. -/
def GetUserByID (c : Codec User) (net : Net) (w : World) (userID : Int) (r1 r2 : Nat)
    (row : Except GoError GetUserByIDRow) : World × Run (User × Option GoError) :=
  TakeByID c net w "user" (.int userID) (5 * Minute) r1 r2
    (match row with
     | .error err => .error err
     | .ok row =>
       .ok (rowToUser row.ID row.Username row.Email "" row.Avatar row.Status row.CreatedAt
         row.UpdatedAt))

/-- `UserRepository.CountUsers`, through `CountWithCache`, which reads through
the cache with the identifier `count`.  `count` is the result of
`queries.CountUsers`. -/
def CountUsers (c : Codec Int) (net : Net) (w : World) (r1 r2 : Nat)
    (count : Except GoError Int) : World × Run (Int × Option GoError) :=
  TakeByID c net w "user:count" (.str "count") Minute r1 r2 count

/-- `UserRepository.CreateUser`.  `create` is the error of `queries.CreateUser`,
`lastInsertId` the result of `result.LastInsertId()` and `row` the result of
the query that `GetUserByID` runs for the new user.  The result of the cache
cleaning is dropped. -/
def CreateUser (c : Codec User) (net : Net) (w : World) (create : Option GoError)
    (lastInsertId : Except GoError Int) (r1 r2 : Nat) (row : Except GoError GetUserByIDRow) :
    World × Run (User × Option GoError) :=
  let w1 := w.emit .exec
  match create with
  | some err => (w1, .ok (User.zero, some err))
  | none =>
    match lastInsertId with
    | .error err => (w1, .ok (User.zero, some (.wrap "failed to get last insert id: " err)))
    | .ok userID =>
      let w2 := (ExecByID net w1 "user:count" (.str "total") none).1
      GetUserByID c net w2 userID r1 r2 row

/-- `UserRepository.UpdateUserPassword`.  `update` is the result of
`queries.UpdateUserPassword`. -/
def UpdateUserPassword (net : Net) (w : World) (userID : Int) (update : Option GoError) :
    World × Option GoError :=
  ExecByID net w "user" (.int userID) update

/-- `UserRepository.DeleteUser`.  `user` is the result of `queries.GetUserByID`
and `delete` that of `queries.DeleteUser`. -/
def DeleteUser (net : Net) (w : World) (userID : Int) (user : Except GoError UserRow)
    (delete : Option GoError) : World × Option GoError :=
  let w1 := w.emit .query
  match user with
  | .error err => (w1, some (.wrap "repository: get user: " err))
  | .ok user =>
    let indexes := [
      BuildIndexKey "user" "email" (.str user.Email),
      BuildIndexKey "user" "username" (.str user.Username),
      BuildKey "user:count" (.str "total")]
    ExecByIDWithIndexes net w1 "user" (.int userID) indexes delete

/-! ## The user service (`internal/domain/service/user_service.go`) -/

/-- `ErrUserNotFound`. -/
def ErrUserNotFound : AppError := ErrNotFound

/-- `ErrUserExists`. -/
def ErrUserExists : AppError := ErrAlreadyExists

/-- `ErrInvalidInput`. -/
def ErrInvalidInput : AppError := ErrInvalidParams

/-- The two functions of `golang.org/x/crypto/bcrypt` that the service calls:
`GenerateFromPassword` at the default cost, and `CompareHashAndPassword`, which
is `true` when the returned error is nil. -/
structure Bcrypt where
  GenerateFromPassword : String → Except GoError String
  CompareHashAndPassword : String → String → Bool

/-- Calls of the repository made by the service, in order. -/
inductive RepoCall where
  | GetUserByID (userID : Int)
  | GetUserByEmail (email : String)
  | GetUserByUsername (username : String)
  | CreateUser (params : CreateUserParams)
  | UpdateUserPassword (userID : Int) (password : String)
  deriving DecidableEq, Repr

/-- `RegisterInput`. -/
structure RegisterInput where
  Username : String
  Email : String
  Password : String
  deriving DecidableEq, Repr

/-- `ChangePasswordInput`. -/
structure ChangePasswordInput where
  UserID : Int
  OldPassword : String
  NewPassword : String
  deriving DecidableEq, Repr

/-- `userService.Register`.  The arguments after the hash functions are the
results of the repository's `GetUserByEmail`, `GetUserByUsername` and
`CreateUser`; log lines and metrics are left out. -/
def Register (b : Bcrypt) (getUserByEmail getUserByUsername : Except GoError User)
    (createUser : CreateUserParams → Except GoError User) (input : RegisterInput) :
    List RepoCall × (User × Option AppError) :=
  if input.Username = "" ∨ input.Email = "" ∨ input.Password = "" then
    ([], (User.zero, some ErrInvalidInput))
  else
    let found (r : Except GoError User) : Bool :=
      match r with
      | .ok existingUser => decide (existingUser.ID > 0)
      | .error _ => false
    if found getUserByEmail then
      ([.GetUserByEmail input.Email], (User.zero, some ErrUserExists))
    else if found getUserByUsername then
      ([.GetUserByEmail input.Email, .GetUserByUsername input.Username],
        (User.zero, some ErrUserExists))
    else
      match b.GenerateFromPassword input.Password with
      | .error err =>
        ([.GetUserByEmail input.Email, .GetUserByUsername input.Username],
          (User.zero, some (.wrap "service: hash password: " (.plain err))))
      | .ok hashedPassword =>
        let params : CreateUserParams :=
          { Username := input.Username, Email := input.Email, Password := hashedPassword,
            Avatar := none }
        let calls := [RepoCall.GetUserByEmail input.Email,
          .GetUserByUsername input.Username, .CreateUser params]
        match createUser params with
        | .error err => (calls, (User.zero, some (.wrap "service: create user: " (.plain err))))
        | .ok user => (calls, (user, none))

/-- `userService.ChangePassword`.  `getUserByID` is the result of the
repository's `GetUserByID` and `updateUserPassword` that of its
`UpdateUserPassword` for a given hash; metrics are left out. -/
def ChangePassword (b : Bcrypt) (getUserByID : Except GoError User)
    (updateUserPassword : String → Option GoError) (input : ChangePasswordInput) :
    List RepoCall × Option AppError :=
  if input.OldPassword = "" ∨ input.NewPassword = "" then ([], some ErrInvalidInput)
  else
    match getUserByID with
    | .error err =>
      ([.GetUserByID input.UserID],
        some (if errorsIsNoRows err then ErrUserNotFound
          else .wrap "service: get user: " (.plain err)))
    | .ok user =>
      if !b.CompareHashAndPassword user.Password input.OldPassword then
        ([.GetUserByID input.UserID], some ErrInvalidPassword)
      else
        match b.GenerateFromPassword input.NewPassword with
        | .error err =>
          ([.GetUserByID input.UserID], some (.wrap "service: hash password: " (.plain err)))
        | .ok hashedPassword =>
          let calls := [RepoCall.GetUserByID input.UserID,
            .UpdateUserPassword input.UserID hashedPassword]
          match updateUserPassword hashedPassword with
          | some err => (calls, some (.wrap "service: update password: " (.plain err)))
          | none => (calls, none)

/-! ## Concrete collaborators used to run the definitions -/

/-- A store on which every command succeeds. -/
def netUp : Net := fun _ => none

/-- A store on which every command fails. -/
def netDown : Net := fun _ => some (.other "dial tcp: connection refused")

/-- A world with an empty store at time zero. -/
def emptyWorld : World := ⟨[], 0, 0, [], []⟩

/-- A codec for strings that encodes a string as itself and decodes every
string that does not start with `!`; a failed decoding leaves the variable as
it was. -/
def strCodec : Codec String where
  zero := ""
  marshal := fun s => some s
  unmarshal := fun s d =>
    match s.data with
    | '!' :: _ => (d, false)
    | _ => (s, true)

/-! ## Scenario drivers -/

/-- What `TakeByID` returns on reading the stored string `s` when `s` is the
placeholder or decodes: `sql.ErrNoRows` for the placeholder, the decoded value
otherwise. -/
def hitResult {T : Type} (c : Codec T) (s : String) : T × Option GoError :=
  if s = NotFoundPlaceholder then (c.zero, some .errNoRows)
  else ((c.unmarshal s c.zero).1, none)

/-- Consecutive `TakeByID` calls on one key with nothing in between, each call
with its own base TTL, draws and loader outcome.  Returns the final world and
the results in call order. -/
def takeByIDSeq {T : Type} (c : Codec T) (net : Net) (entity : String) (id : AnyVal) :
    World → List (Int × Nat × Nat × Except GoError T) →
      World × List (Run (T × Option GoError))
  | w, [] => (w, [])
  | w, (baseTTL, r1, r2, queryFn) :: rest =>
    let first := TakeByID c net w entity id baseTTL r1 r2 queryFn
    let others := takeByIDSeq c net entity id first.1 rest
    (others.1, first.2 :: others.2)

/-- A world at time zero whose store holds the entry `old` for user 7, written
with a five-minute expiration. -/
def cachedWorld : World :=
  ⟨[("cache:user:7", ⟨"old", 300000000000, 0⟩)], 0, 0, [], []⟩

/-- A world at time zero whose store holds the index entry that maps the
username `alice` to the identifier `u42`, and the primary entry of `u42`. -/
def indexedWorld : World :=
  ⟨[("cache:user:username:alice", ⟨"u42", 600000000000, 0⟩),
    ("cache:user:u42", ⟨"alice-record", 300000000000, 0⟩)], 0, 0, [], []⟩

/-- A world at time zero whose store holds, for user 7, a string that the
codec `strCodec` does not decode. -/
def corruptWorld : World :=
  ⟨[("cache:user:7", ⟨"!garbage", 300000000000, 0⟩)], 0, 0, [], []⟩

/-- A store on which only the second command fails. -/
def netSecondDown : Net := fun n => if n = 1 then some (.other "i/o timeout") else none

/-- A world at time zero in which the lock of the task `cleanup` is held. -/
def lockedWorld : World :=
  ⟨[("task:lock:cleanup", ⟨"0", 300000000000, 0⟩)], 0, 0, [], []⟩

/-! ## JSON texts -/

/-- JSON values as `encoding/json` writes them: `null`, booleans, integers,
strings, arrays and objects (numbers with a fraction are left out). -/
inductive Json where
  | null
  | bool (b : Bool)
  | num (n : Int)
  | str (s : String)
  | arr (items : List Json)
  | obj (fields : List (String × Json))

/-- The double quote that delimits JSON strings. -/
def quoteChar : Char := Char.ofNat 34

mutual
/-- The characters of the JSON text of a value (string contents are copied as
they are). -/
def Json.encode : Json → List Char
  | .null => "null".data
  | .bool true => "true".data
  | .bool false => "false".data
  | .num n => (toString n).data
  | .str s => quoteChar :: s.data ++ [quoteChar]
  | .arr items => '[' :: encodeItems items ++ [']']
  | .obj fields => Char.ofNat 123 :: encodeFields fields ++ [Char.ofNat 125]
/-- The comma-separated elements of an array. -/
def encodeItems : List Json → List Char
  | [] => []
  | x :: rest => x.encode ++ (if rest.isEmpty then [] else ',' :: encodeItems rest)
/-- The comma-separated members of an object. -/
def encodeFields : List (String × Json) → List Char
  | [] => []
  | (k, x) :: rest =>
    quoteChar :: k.data ++ quoteChar :: ':' :: x.encode
      ++ (if rest.isEmpty then [] else ',' :: encodeFields rest)
end

/-- The JSON text of a value as a string. -/
def Json.render (j : Json) : String := String.mk j.encode

/-- The codec encodes through JSON: `json.Marshal` writes the JSON text of the
value, or fails where `toJson` gives no JSON value. -/
def MarshalsJson {T : Type} (c : Codec T) (toJson : T → Option Json) : Prop :=
  ∀ v, c.marshal v = (toJson v).map Json.render

/-- The codec of the cached user count, an `int64` written as a JSON number. -/
def countCodec : Codec Int where
  zero := 0
  marshal := fun n => some (Json.render (.num n))
  unmarshal := fun s d =>
    match s.toInt? with
    | some n => (n, true)
    | none => (d, false)

/-! ## Scenarios of the user repository and service -/

/-- A codec for `int64` values: the JSON number, decoded as a decimal
integer. -/
def int64Codec : Codec Int where
  zero := 0
  marshal := fun n => some (Json.render (.num n))
  unmarshal := fun s d =>
    match ParseInt s with
    | (n, true) => (n, true)
    | (_, false) => (d, false)

/-- A JSON object for a user, with the field names of the struct; the times
are written as numbers. -/
def User.toJson (u : User) : Json :=
  .obj [("ID", .num u.ID), ("Username", .str u.Username), ("Email", .str u.Email),
    ("Password", .str u.Password),
    ("Avatar", match u.Avatar with
      | some a => .str a
      | none => .null),
    ("Status", .num u.Status), ("CreatedAt", .num u.CreatedAt), ("UpdatedAt", .num u.UpdatedAt)]

/-- A codec for users that encodes a user as its JSON object and decodes
exactly the texts of the listed users; a failed decoding leaves the variable
as it was. -/
def userCodec (known : List User) : Codec User where
  zero := User.zero
  marshal := fun u => some u.toJson.render
  unmarshal := fun s d =>
    match known.find? (fun u => u.toJson.render = s) with
    | some u => (u, true)
    | none => (d, false)

/-- A stand-in for bcrypt: the hash of a password is the password after a
fixed header, and a hash matches the password it was made from. -/
def toyBcrypt : Bcrypt where
  GenerateFromPassword := fun p => .ok ("$2a$10$" ++ p)
  CompareHashAndPassword := fun h p => decide (h = "$2a$10$" ++ p)

/-- The row of user 1, `alice`, as the database returns it. -/
def aliceRow : GetUserByIDRow := ⟨1, "alice", "alice@example.com", none, 1, 0, 0⟩

/-- The user record of `alice` as `GetUserByID` builds it. -/
def aliceUser : User := ⟨1, "alice", "alice@example.com", "", none, 1, 0, 0⟩

/-- The world after `CountUsers` has counted 5 users on an empty working
store. -/
def countedWorld : World := (CountUsers int64Codec netUp emptyWorld 1 2 (.ok 5)).1

/-- The world after a successful `CreateUser` that follows the count. -/
def createdWorld : World :=
  (CreateUser (userCodec [aliceUser]) netUp countedWorld none (.ok 1) 3 4 (.ok aliceRow)).1

/-! ## Projections of the world updates -/

@[simp]
theorem issue_entries (w : World) (e : Event) : (w.issue e).entries = w.entries := rfl

@[simp]
theorem issue_now (w : World) (e : Event) : (w.issue e).now = w.now := rfl

@[simp]
theorem issue_ops (w : World) (e : Event) : (w.issue e).ops = w.ops + 1 := rfl

@[simp]
theorem issue_log (w : World) (e : Event) : (w.issue e).log = w.log ++ [e] := rfl

@[simp]
theorem issue_metrics (w : World) (e : Event) : (w.issue e).metrics = w.metrics := rfl

@[simp]
theorem emit_entries (w : World) (e : Event) : (w.emit e).entries = w.entries := rfl

@[simp]
theorem emit_now (w : World) (e : Event) : (w.emit e).now = w.now := rfl

@[simp]
theorem emit_ops (w : World) (e : Event) : (w.emit e).ops = w.ops := rfl

@[simp]
theorem emit_log (w : World) (e : Event) : (w.emit e).log = w.log ++ [e] := rfl

@[simp]
theorem emit_metrics (w : World) (e : Event) : (w.emit e).metrics = w.metrics := rfl

@[simp]
theorem count_entries (w : World) (m : List String) : (w.count m).entries = w.entries := rfl

@[simp]
theorem count_now (w : World) (m : List String) : (w.count m).now = w.now := rfl

@[simp]
theorem count_ops (w : World) (m : List String) : (w.count m).ops = w.ops := rfl

@[simp]
theorem count_log (w : World) (m : List String) : (w.count m).log = w.log := rfl

@[simp]
theorem count_metrics (w : World) (m : List String) :
    (w.count m).metrics = w.metrics ++ [m] := rfl

@[simp]
theorem advance_entries (w : World) (d : Nat) : (w.advance d).entries = w.entries := rfl

@[simp]
theorem advance_now (w : World) (d : Nat) : (w.advance d).now = w.now + d := rfl

@[simp]
theorem advance_ops (w : World) (d : Nat) : (w.advance d).ops = w.ops := rfl

@[simp]
theorem advance_log (w : World) (d : Nat) : (w.advance d).log = w.log := rfl

/-- Reading depends on the keyspace and the clock only. -/
theorem read_congr (w v : World) (key : String) (he : v.entries = w.entries)
    (hn : v.now = w.now) : v.read key = w.read key := by
  simp [World.read, he, hn]

@[simp]
theorem read_issue (w : World) (e : Event) (key : String) :
    (w.issue e).read key = w.read key := rfl

@[simp]
theorem read_emit (w : World) (e : Event) (key : String) :
    (w.emit e).read key = w.read key := rfl

@[simp]
theorem read_count (w : World) (m : List String) (key : String) :
    (w.count m).read key = w.read key := rfl

/-! ## The keyspace -/

theorem find_cons_self (key : String) (e : Entry) (es : List (String × Entry)) :
    find key ((key, e) :: es) = some e := by
  simp [find]

theorem find_erase_mem (key : String) (keys : List String) (es : List (String × Entry))
    (h : key ∈ keys) : find key (erase keys es) = none := by
  induction es with
  | nil => simp [erase, find]
  | cons p rest ih =>
    obtain ⟨k, e⟩ := p
    by_cases hk : k ∈ keys
    · have hstep : erase keys ((k, e) :: rest) = erase keys rest := by
        simp [erase, hk]
      rw [hstep]; exact ih
    · have hstep : erase keys ((k, e) :: rest) = (k, e) :: erase keys rest := by
        simp [erase, hk]
      have hne : k ≠ key := fun heq => hk (heq ▸ h)
      rw [hstep]
      simp only [find, hne, if_false]
      exact ih

theorem find_erase_not_mem (key : String) (keys : List String) (es : List (String × Entry))
    (h : key ∉ keys) : find key (erase keys es) = find key es := by
  induction es with
  | nil => simp [erase, find]
  | cons p rest ih =>
    obtain ⟨k, e⟩ := p
    by_cases hk : k ∈ keys
    · have hstep : erase keys ((k, e) :: rest) = erase keys rest := by
        simp [erase, hk]
      have hne : k ≠ key := fun heq => h (heq ▸ hk)
      rw [hstep]
      simp only [find, hne, if_false]
      exact ih
    · have hstep : erase keys ((k, e) :: rest) = (k, e) :: erase keys rest := by
        simp [erase, hk]
      rw [hstep]
      by_cases hkk : k = key
      · simp [find, hkk]
      · simp only [find, hkk, if_false]
        exact ih

/-- A successful `GET` returns what the keyspace holds. -/
theorem get_up (net : Net) (w : World) (key : String) (h : net w.ops = none) :
    w.Get net key = (w.read key, w.issue (.get key)) := by
  simp [World.Get, h]

/-- A failed `GET` returns an error. -/
theorem get_down (net : Net) (w : World) (key : String) (e : GoError)
    (h : net w.ops = some e) : w.Get net key = (none, w.issue (.get key)) := by
  simp [World.Get, h]

/-- The TTL computation returns for a base outside 1..4 nanoseconds. -/
theorem getJitterTTL_returns (baseTTL : Int) (r1 r2 : Nat)
    (h : baseTTL ≤ 0 ∨ 5 ≤ baseTTL) : ∃ ttl, getJitterTTL baseTTL r1 r2 = .ok ttl := by
  by_cases h0 : baseTTL ≤ 0
  · exact ⟨baseTTL, by simp [getJitterTTL, h0]⟩
  · have h5 : 5 ≤ baseTTL := by omega
    have hq : ¬ Int.tdiv baseTTL 5 ≤ 0 := by
      have : Int.tdiv baseTTL 5 = baseTTL / 5 := Int.tdiv_eq_ediv (by omega) (by omega)
      rw [this]; omega
    simp [getJitterTTL, h0, Int63n, hq]

/-! ## Negative caching -/

/-- A readable sentinel answers the call without the loader. -/
theorem takeByID_sentinel_hit {T : Type} (c : Codec T) (net : Net) (w : World)
    (entity : String) (id : AnyVal) (baseTTL : Int) (r1 r2 : Nat) (queryFn : Except GoError T)
    (hup : net w.ops = none)
    (hs : w.read (BuildKey entity id) = some NotFoundPlaceholder) :
    TakeByID c net w entity id baseTTL r1 r2 queryFn =
      (RecordCacheHit (w.issue (.get (BuildKey entity id))) entity,
        .ok (c.zero, some .errNoRows)) := by
  simp [TakeByID, World.Get, hup, hs]

/-- The world after a miss on a working store whose loader reported
`sql.ErrNoRows`: two reads, the loader call and the write of the placeholder. -/
theorem takeByID_notFound_miss {T : Type} (c : Codec T) (net : Net) (w : World)
    (entity : String) (id : AnyVal) (baseTTL : Int) (r1 r2 : Nat)
    (hnet : ∀ n, net n = none)
    (habs : w.read (BuildKey entity id) = none) :
    TakeByID c net w entity id baseTTL r1 r2 (.error .errNoRows) =
      (({ (((RecordCacheMiss (w.issue (.get (BuildKey entity id))) entity).issue
            (.get (BuildKey entity id))).emit .query).issue
            (.set (BuildKey entity id) NotFoundPlaceholder DefaultNotFoundTTL) with
          entries := (BuildKey entity id, Entry.mk NotFoundPlaceholder DefaultNotFoundTTL w.now)
            :: erase [BuildKey entity id] w.entries } : World),
        .ok (c.zero, some .errNoRows)) := by
  simp [TakeByID, takeByIDMiss, takeByIDLoad, sfGroupDo, World.Get, World.Set, hnet, habs,
    errorsIsNoRows, RecordCacheMiss]

/-- C1 (negative caching).  On a working store, a `TakeByID` whose key is
absent and whose loader returns `sql.ErrNoRows` returns `sql.ErrNoRows`, calls
the loader once and leaves the key mapped to the placeholder `*` with the
expiration `DefaultNotFoundTTL` of five minutes.  Any `TakeByID` on that key
made less than five minutes later returns `sql.ErrNoRows` after a single `GET`,
so without calling its loader, whatever TTL, draws and loader it is given. -/
theorem takeByID_negative_caching {T : Type} (c : Codec T) (net : Net) (w : World)
    (entity : String) (id : AnyVal) (baseTTL : Int) (r1 r2 : Nat)
    (hnet : ∀ n, net n = none)
    (habs : w.read (BuildKey entity id) = none) :
    (TakeByID c net w entity id baseTTL r1 r2 (.error .errNoRows)).2
        = .ok (c.zero, some .errNoRows)
    ∧ (TakeByID c net w entity id baseTTL r1 r2 (.error .errNoRows)).1.log
        = w.log ++ [.get (BuildKey entity id), .get (BuildKey entity id), .query,
            .set (BuildKey entity id) "*" (5 * 60 * 1000000000)]
    ∧ find (BuildKey entity id)
          (TakeByID c net w entity id baseTTL r1 r2 (.error .errNoRows)).1.entries
        = some ⟨NotFoundPlaceholder, DefaultNotFoundTTL, w.now⟩
    ∧ ∀ (d : Nat) (baseTTL2 : Int) (s1 s2 : Nat) (queryFn : Except GoError T),
        (d : Int) < DefaultNotFoundTTL →
        (TakeByID c net
            ((TakeByID c net w entity id baseTTL r1 r2 (.error .errNoRows)).1.advance d)
            entity id baseTTL2 s1 s2 queryFn).2 = .ok (c.zero, some .errNoRows)
        ∧ (TakeByID c net
            ((TakeByID c net w entity id baseTTL r1 r2 (.error .errNoRows)).1.advance d)
            entity id baseTTL2 s1 s2 queryFn).1.log
          = (TakeByID c net w entity id baseTTL r1 r2 (.error .errNoRows)).1.log
              ++ [.get (BuildKey entity id)] := by
  have hfirst := takeByID_notFound_miss c net w entity id baseTTL r1 r2 hnet habs
  rw [hfirst]
  refine ⟨rfl, ?_, ?_, ?_⟩
  · simp [RecordCacheMiss, NotFoundPlaceholder, DefaultNotFoundTTL, Minute, Second]
  · simp [find]
  · intro d baseTTL2 s1 s2 queryFn hd
    have hread : World.read (World.advance
        ({ (((RecordCacheMiss (w.issue (.get (BuildKey entity id))) entity).issue
            (.get (BuildKey entity id))).emit .query).issue
            (.set (BuildKey entity id) NotFoundPlaceholder DefaultNotFoundTTL) with
          entries := (BuildKey entity id, Entry.mk NotFoundPlaceholder DefaultNotFoundTTL w.now)
            :: erase [BuildKey entity id] w.entries } : World) d) (BuildKey entity id)
        = some NotFoundPlaceholder := by
      have hlt : ((w.now : Int) + (d : Int)) < (w.now : Int) + DefaultNotFoundTTL := by omega
      simp [World.read, World.advance, find, Entry.live, RecordCacheMiss, hlt]
    rw [takeByID_sentinel_hit c net _ entity id baseTTL2 s1 s2 queryFn (hnet _) hread]
    simp [RecordCacheHit, RecordCacheMiss]

/-- The negative-caching theorem at the key `cache:user:999999` of an empty
working store. -/
theorem takeByID_negative_caching_witness :
    emptyWorld.read (BuildKey "user" (.int 999999)) = none
    ∧ (TakeByID strCodec netUp emptyWorld "user" (.int 999999) (5 * Minute) 1 2
        (.error .errNoRows)).2 = .ok ("", some .errNoRows)
    ∧ (TakeByID strCodec netUp
        ((TakeByID strCodec netUp emptyWorld "user" (.int 999999) (5 * Minute) 1 2
          (.error .errNoRows)).1.advance 1000)
        "user" (.int 999999) (5 * Minute) 3 4 (.ok "found")).2 = .ok ("", some .errNoRows) :=
  ⟨rfl,
    (takeByID_negative_caching strCodec netUp emptyWorld "user" (.int 999999) (5 * Minute) 1 2
      (fun _ => rfl) rfl).1,
    ((takeByID_negative_caching strCodec netUp emptyWorld "user" (.int 999999) (5 * Minute) 1 2
      (fun _ => rfl) rfl).2.2.2 1000 (5 * Minute) 3 4 (.ok "found") (by decide)).1⟩

/-! ## Repeated reads -/

/-- A readable entry that is the placeholder or decodes answers the call with
one `GET` and nothing else. -/
theorem takeByID_hit {T : Type} (c : Codec T) (net : Net) (w : World)
    (entity : String) (id : AnyVal) (baseTTL : Int) (r1 r2 : Nat) (queryFn : Except GoError T)
    (s : String) (hup : net w.ops = none)
    (hs : w.read (BuildKey entity id) = some s)
    (hdec : s = NotFoundPlaceholder ∨ (c.unmarshal s c.zero).2 = true) :
    TakeByID c net w entity id baseTTL r1 r2 queryFn =
      (RecordCacheHit (w.issue (.get (BuildKey entity id))) entity,
        .ok (hitResult c s)) := by
  by_cases hp : s = NotFoundPlaceholder
  · simp [TakeByID, World.Get, hup, hs, hp, hitResult]
  · have hd : (c.unmarshal s c.zero).2 = true := by
      rcases hdec with h | h
      · exact absurd h hp
      · exact h
    rcases hu : c.unmarshal s c.zero with ⟨d, b⟩
    rw [hu] at hd
    simp only at hd
    subst hd
    simp [TakeByID, World.Get, hup, hs, hp, hitResult, hu]

/-- Calls that find such an entry never reach the loader and all return the
same result. -/
theorem takeByIDSeq_hits {T : Type} (c : Codec T) (net : Net) (entity : String) (id : AnyVal)
    (s : String) (hnet : ∀ n, net n = none)
    (hdec : s = NotFoundPlaceholder ∨ (c.unmarshal s c.zero).2 = true)
    (calls : List (Int × Nat × Nat × Except GoError T)) :
    ∀ w : World, w.read (BuildKey entity id) = some s →
      (takeByIDSeq c net entity id w calls).2
          = List.replicate calls.length (.ok (hitResult c s))
      ∧ (takeByIDSeq c net entity id w calls).1.log.count .query = w.log.count .query := by
  induction calls with
  | nil => intro w _; simp [takeByIDSeq]
  | cons call rest ih =>
    intro w hs
    obtain ⟨baseTTL, r1, r2, queryFn⟩ := call
    have hcall := takeByID_hit c net w entity id baseTTL r1 r2 queryFn s (hnet _) hs hdec
    have hs2 : (RecordCacheHit (w.issue (.get (BuildKey entity id))) entity).read
        (BuildKey entity id) = some s := hs
    obtain ⟨hres, hlog⟩ := ih _ hs2
    simp only [takeByIDSeq, hcall, hres, hlog, List.length_cons, List.replicate_succ]
    simp [RecordCacheHit]
/-- The world after a miss on a working store whose loader returned a value:
two reads, the loader call and the write of the encoding with the jittered
TTL; the result is decoded from that encoding. -/
theorem takeByID_loaded_miss {T : Type} (c : Codec T) (net : Net) (w : World)
    (entity : String) (id : AnyVal) (baseTTL : Int) (r1 r2 : Nat) (v : T) (ttl : Int)
    (hnet : ∀ n, net n = none)
    (habs : w.read (BuildKey entity id) = none)
    (httl : getJitterTTL baseTTL r1 r2 = .ok ttl) :
    TakeByID c net w entity id baseTTL r1 r2 (.ok v) =
      (RecordCacheSet ({ (((RecordCacheMiss (w.issue (.get (BuildKey entity id))) entity).issue
            (.get (BuildKey entity id))).emit .query).issue
            (.set (BuildKey entity id) ((c.marshal v).getD "") ttl) with
          entries := (BuildKey entity id, Entry.mk ((c.marshal v).getD "") ttl w.now)
            :: erase [BuildKey entity id] w.entries } : World) entity,
        .ok (hitResult c ((c.marshal v).getD ""))) := by
  by_cases hp : (c.marshal v).getD "" = NotFoundPlaceholder
  · simp [TakeByID, takeByIDMiss, takeByIDLoad, sfGroupDo, World.Get, World.Set, hnet, habs,
      RecordCacheMiss, httl, hitResult, hp]
  · simp [TakeByID, takeByIDMiss, takeByIDLoad, sfGroupDo, World.Get, World.Set, hnet, habs,
      RecordCacheMiss, httl, hitResult, hp]

/-- An entry is readable at the instant it is written. -/
theorem live_at_write (value : String) (ttl : Int) (now : Nat) :
    (Entry.mk value ttl now).live now = true := by
  by_cases h : ttl ≤ 0
  · simp [Entry.live, h]
  · have : (now : Int) < (now : Int) + ttl := by omega
    simp [Entry.live, this]

/-- C2, as amended (idempotent hit).  On a working store where the key is
absent, with a base TTL outside 1..4 nanoseconds and a first loader that either
reports `sql.ErrNoRows` or returns a value whose encoding decodes, any number
of further `TakeByID` calls on the key with nothing in between return the
result of the first call, and the loader is called exactly once in total (by
the first call), whatever TTL, draws and loaders the later calls are given. -/
theorem takeByID_idempotent_hit {T : Type} (c : Codec T) (net : Net) (w : World)
    (entity : String) (id : AnyVal) (baseTTL : Int) (r1 r2 : Nat) (queryFn : Except GoError T)
    (later : List (Int × Nat × Nat × Except GoError T))
    (hnet : ∀ n, net n = none)
    (habs : w.read (BuildKey entity id) = none)
    (httl : baseTTL ≤ 0 ∨ 5 ≤ baseTTL)
    (hload : queryFn = .error .errNoRows ∨
      ∃ v bs, queryFn = .ok v ∧ c.marshal v = some bs ∧ (c.unmarshal bs c.zero).2 = true) :
    ∃ r : T × Option GoError,
      (takeByIDSeq c net entity id w ((baseTTL, r1, r2, queryFn) :: later)).2
          = List.replicate (later.length + 1) (.ok r)
      ∧ (takeByIDSeq c net entity id w ((baseTTL, r1, r2, queryFn) :: later)).1.log.count .query
          = w.log.count .query + 1 := by
  rcases hload with hq | ⟨v, bs, hq, hm, hdec⟩
  · subst hq
    refine ⟨(c.zero, some .errNoRows), ?_⟩
    have hfirst := takeByID_notFound_miss c net w entity id baseTTL r1 r2 hnet habs
    have hread : World.read
        ({ (((RecordCacheMiss (w.issue (.get (BuildKey entity id))) entity).issue
            (.get (BuildKey entity id))).emit .query).issue
            (.set (BuildKey entity id) NotFoundPlaceholder DefaultNotFoundTTL) with
          entries := (BuildKey entity id, Entry.mk NotFoundPlaceholder DefaultNotFoundTTL w.now)
            :: erase [BuildKey entity id] w.entries } : World) (BuildKey entity id)
        = some NotFoundPlaceholder := by
      simp [World.read, find, RecordCacheMiss, live_at_write]
    obtain ⟨hres, hlog⟩ := takeByIDSeq_hits c net entity id NotFoundPlaceholder hnet
      (Or.inl rfl) later _ hread
    simp only [takeByIDSeq, hfirst, hres, hlog, List.replicate_succ]
    simp [hitResult, RecordCacheMiss]
  · subst hq
    obtain ⟨ttl, hj⟩ := getJitterTTL_returns baseTTL r1 r2 httl
    refine ⟨hitResult c bs, ?_⟩
    have hfirst := takeByID_loaded_miss c net w entity id baseTTL r1 r2 v ttl hnet habs hj
    have hbs : (c.marshal v).getD "" = bs := by simp [hm]
    rw [hbs] at hfirst
    have hread : World.read
        (RecordCacheSet ({ (((RecordCacheMiss (w.issue (.get (BuildKey entity id))) entity).issue
            (.get (BuildKey entity id))).emit .query).issue
            (.set (BuildKey entity id) bs ttl) with
          entries := (BuildKey entity id, Entry.mk bs ttl w.now)
            :: erase [BuildKey entity id] w.entries } : World) entity) (BuildKey entity id)
        = some bs := by
      simp [World.read, find, RecordCacheMiss, RecordCacheSet, live_at_write]
    obtain ⟨hres, hlog⟩ := takeByIDSeq_hits c net entity id bs hnet
      (Or.inr hdec) later _ hread
    simp only [takeByIDSeq, hfirst, hres, hlog, List.replicate_succ]
    simp [RecordCacheMiss, RecordCacheSet]

/-- The amended C2 at three calls for user 7 on an empty working store. -/
theorem takeByID_idempotent_hit_witness :
    emptyWorld.read (BuildKey "user" (.int 7)) = none
    ∧ ∃ r : String × Option GoError,
      (takeByIDSeq strCodec netUp "user" (.int 7) emptyWorld
        [(5 * Minute, 1, 2, .ok "alice"), (5 * Minute, 3, 4, .ok "bob"),
          (Minute, 5, 6, .error (.other "down"))]).2 = List.replicate 3 (.ok r)
      ∧ (takeByIDSeq strCodec netUp "user" (.int 7) emptyWorld
        [(5 * Minute, 1, 2, .ok "alice"), (5 * Minute, 3, 4, .ok "bob"),
          (Minute, 5, 6, .error (.other "down"))]).1.log.count .query = 0 + 1 :=
  ⟨rfl, takeByID_idempotent_hit strCodec netUp emptyWorld "user" (.int 7) (5 * Minute) 1 2
    (.ok "alice") [(5 * Minute, 3, 4, .ok "bob"), (Minute, 5, 6, .error (.other "down"))]
    (fun _ => rfl) rfl (Or.inr (by decide))
    (Or.inr ⟨"alice", "alice", rfl, rfl, by decide⟩)⟩

/-- C2 as stated fails: on an empty working store, two consecutive `TakeByID`
calls for user 7 whose loader fails with an error other than `sql.ErrNoRows`
call the loader twice, since nothing is cached for such an error. -/
theorem takeByID_idempotent_hit_counterexample :
    emptyWorld.read (BuildKey "user" (.int 7)) = none
    ∧ (takeByIDSeq strCodec netUp "user" (.int 7) emptyWorld
        [(5 * Minute, 1, 2, .error (.other "connection refused")),
          (5 * Minute, 1, 2, .error (.other "connection refused"))]).1.log.count .query = 2
    ∧ (takeByIDSeq strCodec netUp "user" (.int 7) emptyWorld
        [(5 * Minute, 1, 2, .error (.other "connection refused")),
          (5 * Minute, 1, 2, .error (.other "connection refused"))]).1.log
        = [.get "cache:user:7", .get "cache:user:7", .query,
            .get "cache:user:7", .get "cache:user:7", .query] := by
  refine ⟨rfl, ?_, ?_⟩ <;> decide

/-! ## Reads of an absent key under any failure pattern -/

/-- A read of an absent key returns an error whether or not the store
answers. -/
theorem get_absent (net : Net) (w : World) (key : String) (habs : w.read key = none) :
    w.Get net key = (none, w.issue (.get key)) := by
  cases h : net w.ops <;> simp [World.Get, h, habs]

/-- The events of a `SET` and its clock do not depend on its success. -/
theorem set_log (net : Net) (w : World) (key value : String) (ttl : Int) :
    (w.Set net key value ttl).2.log = w.log ++ [.set key value ttl] := by
  cases h : net w.ops <;> simp [World.Set, h]

/-- With the key absent and a loader that returns `v`, `TakeByID` calls the
loader once and returns the decoding of the encoding of `v`, whatever the
store does. -/
theorem takeByID_absent_loaded {T : Type} (c : Codec T) (net : Net) (w : World)
    (entity : String) (id : AnyVal) (baseTTL : Int) (r1 r2 : Nat) (v : T) (ttl : Int)
    (habs : w.read (BuildKey entity id) = none)
    (httl : getJitterTTL baseTTL r1 r2 = .ok ttl) :
    (TakeByID c net w entity id baseTTL r1 r2 (.ok v)).2
        = .ok (hitResult c ((c.marshal v).getD ""))
    ∧ (TakeByID c net w entity id baseTTL r1 r2 (.ok v)).1.log
        = w.log ++ [.get (BuildKey entity id), .get (BuildKey entity id), .query,
            .set (BuildKey entity id) ((c.marshal v).getD "") ttl] := by
  have h1 := get_absent net w (BuildKey entity id) habs
  have h2 := get_absent net (RecordCacheMiss (w.issue (.get (BuildKey entity id))) entity)
    (BuildKey entity id) habs
  simp only [TakeByID, h1, takeByIDMiss, sfGroupDo, takeByIDLoad, h2, httl]
  rcases hset : World.Set net
      ((World.issue (RecordCacheMiss (w.issue (.get (BuildKey entity id))) entity)
        (.get (BuildKey entity id))).emit .query)
      (BuildKey entity id) ((c.marshal v).getD "") ttl with ⟨err, w3⟩
  have hlog := set_log net
      ((World.issue (RecordCacheMiss (w.issue (.get (BuildKey entity id))) entity)
        (.get (BuildKey entity id))).emit .query)
      (BuildKey entity id) ((c.marshal v).getD "") ttl
  rw [hset] at hlog
  simp only at hlog
  cases err <;>
    by_cases hp : (c.marshal v).getD "" = NotFoundPlaceholder <;>
    simp [hitResult, hp, hlog, RecordCacheSet, RecordCacheError, RecordCacheMiss]
/-! ## Invalidation -/

/-- A nil result of `ExecByID` means the write succeeded and the delete was
applied. -/
theorem execByID_nil {net : Net} {w w1 : World} {entity : String} {id : AnyVal}
    {execFn : Option GoError} (h : ExecByID net w entity id execFn = (w1, none)) :
    execFn = none ∧ net w.ops = none
    ∧ w1.entries = erase [BuildKey entity id] w.entries
    ∧ w1.now = w.now
    ∧ w1.log = w.log ++ [.exec, .del [BuildKey entity id]] := by
  cases execFn with
  | some e => simp [ExecByID] at h
  | none =>
    cases hn : net w.ops with
    | some e => simp [ExecByID, World.Del, hn] at h
    | none =>
      simp [ExecByID, World.Del, hn, RecordCacheDelete] at h
      subst h
      simp

/-- C3 (invalidation correctness).  From any store state, once
`ExecByID(entity, id, writeFn)` has returned nil the key is no longer readable,
and the next `TakeByID(entity, id)` whose loader returns `V` calls that loader
and returns `V` with a nil error, whatever the store does during that call.
The base TTL is outside 1..4 nanoseconds and `V` survives its encoding. -/
theorem execByID_then_takeByID {T : Type} (c : Codec T) (net : Net) (w w1 : World)
    (entity : String) (id : AnyVal) (execFn : Option GoError)
    (baseTTL : Int) (r1 r2 : Nat) (v : T) (bs : String)
    (hexec : ExecByID net w entity id execFn = (w1, none))
    (httl : baseTTL ≤ 0 ∨ 5 ≤ baseTTL)
    (hm : c.marshal v = some bs) (hne : bs ≠ NotFoundPlaceholder)
    (hrt : (c.unmarshal bs c.zero).1 = v) :
    w1.read (BuildKey entity id) = none
    ∧ (TakeByID c net w1 entity id baseTTL r1 r2 (.ok v)).2 = .ok (v, none)
    ∧ ∃ ttl, (TakeByID c net w1 entity id baseTTL r1 r2 (.ok v)).1.log
        = w1.log ++ [.get (BuildKey entity id), .get (BuildKey entity id), .query,
            .set (BuildKey entity id) bs ttl] := by
  obtain ⟨_, _, hent, _, _⟩ := execByID_nil hexec
  have habs : w1.read (BuildKey entity id) = none := by
    simp [World.read, hent, find_erase_mem]
  obtain ⟨ttl, hj⟩ := getJitterTTL_returns baseTTL r1 r2 httl
  obtain ⟨hres, hlog⟩ := takeByID_absent_loaded c net w1 entity id baseTTL r1 r2 v ttl habs hj
  have hbs : (c.marshal v).getD "" = bs := by simp [hm]
  rw [hbs] at hres hlog
  refine ⟨habs, ?_, ttl, hlog⟩
  rw [hres]
  simp [hitResult, hne, hrt]

/-- C3 at user 7: the store holds `old`, the write succeeds, and the next read
with a loader returning `new` returns `new`. -/
theorem execByID_then_takeByID_witness :
    cachedWorld.read (BuildKey "user" (.int 7)) = some "old"
    ∧ (ExecByID netUp cachedWorld "user" (.int 7) none).2 = none
    ∧ (TakeByID strCodec netUp (ExecByID netUp cachedWorld "user" (.int 7) none).1
        "user" (.int 7) (5 * Minute) 1 2 (.ok "new")).2 = .ok ("new", none) :=
  ⟨by decide, rfl,
    (execByID_then_takeByID strCodec netUp cachedWorld
      (ExecByID netUp cachedWorld "user" (.int 7) none).1 "user" (.int 7) none
      (5 * Minute) 1 2 "new" "new" rfl (Or.inr (by decide)) rfl (by decide) rfl).2.1⟩

/-! ## Index indirection -/

/-- Resolving the index key on a working store keeps a readable primary entry
readable and does not call the data loader. -/
theorem takeByIndexLoad_keeps {ID : Type} (toAny : ID → AnyVal) (net : Net) (w w1 : World)
    (indexKey key : String) (baseTTL : Int) (r1 r2 : Nat) (indexQueryFn : Except GoError ID)
    (idStr s : String)
    (hnet : ∀ n, net n = none)
    (hres : takeByIndexLoad toAny net w indexKey baseTTL r1 r2 indexQueryFn
      = (w1, .ok (.ok idStr)))
    (hprim : w.read key = some s) :
    w1.read key = some s ∧ w1.log.count .query = w.log.count .query := by
  cases hidx : w.read indexKey with
  | some v =>
    simp [takeByIndexLoad, World.Get, hnet, hidx] at hres
    obtain ⟨hw, _⟩ := hres
    subst hw
    simp [hprim]
  | none =>
    have hkey : key ≠ indexKey := by
      intro heq
      rw [heq, hidx] at hprim
      exact absurd hprim (by simp)
    cases indexQueryFn with
    | error e =>
      simp [takeByIndexLoad, World.Get, hnet, hidx] at hres
    | ok id0 =>
      cases hj : getJitterTTL (wrapInt64 (baseTTL * 2)) r1 r2 with
      | panic msg => simp [takeByIndexLoad, World.Get, hnet, hidx, hj] at hres
      | ok ttl =>
        simp [takeByIndexLoad, World.Get, World.Set, hnet, hidx, hj] at hres
        obtain ⟨hw, _⟩ := hres
        subst hw
        have hfind : find key ((indexKey, Entry.mk (fmtV (toAny id0)) ttl w.now)
            :: erase [indexKey] w.entries) = find key w.entries := by
          have hne : indexKey ≠ key := fun h => hkey h.symm
          simp only [find, hne, if_false]
          exact find_erase_not_mem key [indexKey] w.entries (by simpa using hkey)
        constructor
        · simp only [World.read] at hprim ⊢
          simpa [hfind] using hprim
        · simp

/-- C4 (index indirection).  On a working store, when the index key resolves,
from the cache or through the index loader, to an identifier string other than
the placeholder that `idConverter` parses to `id`, and the store holds a
decodable entry under `BuildKey(entity, id)`, then `TakeByIndex` returns what a
direct `TakeByID(entity, id)` returns on that store, namely the decoded entry
with a nil error, and the data loader is not called. -/
theorem takeByIndex_indirection {T ID : Type} (c : Codec T) (toAny : ID → AnyVal) (net : Net)
    (w w1 : World) (entity field : String) (value : AnyVal) (baseTTL : Int)
    (r1 r2 r3 r4 : Nat) (indexQueryFn : Except GoError ID)
    (dataQueryFn : ID → Except GoError T) (idConverter : String → Except GoError ID)
    (idStr s : String) (id : ID)
    (hnet : ∀ n, net n = none)
    (hres : takeByIndexLoad toAny net w (BuildIndexKey entity field value) baseTTL r1 r2
      indexQueryFn = (w1, .ok (.ok idStr)))
    (hid : idStr ≠ NotFoundPlaceholder)
    (hconv : idConverter idStr = .ok id)
    (hprim : w.read (BuildKey entity (toAny id)) = some s)
    (hsent : s ≠ NotFoundPlaceholder)
    (hdec : (c.unmarshal s c.zero).2 = true) :
    (TakeByIndex c toAny net w entity field value baseTTL r1 r2 r3 r4 indexQueryFn
        dataQueryFn idConverter).2 = .ok ((c.unmarshal s c.zero).1, none)
    ∧ (∀ (b : Int) (s1 s2 : Nat) (q : Except GoError T),
        (TakeByID c net w entity (toAny id) b s1 s2 q).2
          = (TakeByIndex c toAny net w entity field value baseTTL r1 r2 r3 r4 indexQueryFn
              dataQueryFn idConverter).2)
    ∧ (TakeByIndex c toAny net w entity field value baseTTL r1 r2 r3 r4 indexQueryFn
        dataQueryFn idConverter).1.log.count .query = w.log.count .query := by
  obtain ⟨hread1, hcount1⟩ := takeByIndexLoad_keeps toAny net w w1
    (BuildIndexKey entity field value) (BuildKey entity (toAny id)) baseTTL r1 r2 indexQueryFn
    idStr s hnet hres hprim
  have hindex : TakeByIndex c toAny net w entity field value baseTTL r1 r2 r3 r4 indexQueryFn
      dataQueryFn idConverter
      = TakeByID c net w1 entity (toAny id) baseTTL r3 r4 (dataQueryFn id) := by
    simp [TakeByIndex, sfGroupDo, hres, hid, hconv]
  have hhit1 := takeByID_hit c net w1 entity (toAny id) baseTTL r3 r4 (dataQueryFn id) s
    (hnet _) hread1 (Or.inr hdec)
  have hval : hitResult c s = ((c.unmarshal s c.zero).1, none) := by
    simp [hitResult, hsent]
  rw [hindex, hhit1, hval]
  refine ⟨rfl, ?_, ?_⟩
  · intro b s1 s2 q
    rw [takeByID_hit c net w entity (toAny id) b s1 s2 q s (hnet _) hprim (Or.inr hdec), hval]
  · simp [RecordCacheHit, hcount1]
/-- C4 for the username `alice`, whose index entry names `u42` and whose
primary entry is cached: the record comes back although the data loader would
fail. -/
theorem takeByIndex_indirection_witness :
    indexedWorld.read (BuildKey "user" (.str "u42")) = some "alice-record"
    ∧ (TakeByIndex strCodec AnyVal.str netUp indexedWorld "user" "username" (.str "alice")
        (5 * Minute) 1 2 3 4 (.error (.other "index loader down"))
        (fun _ => .error (.other "data loader down")) (fun s => .ok s)).2
      = .ok ("alice-record", none) :=
  ⟨by decide,
    (takeByIndex_indirection strCodec AnyVal.str netUp indexedWorld
      (indexedWorld.issue (.get "cache:user:username:alice")) "user" "username" (.str "alice")
      (5 * Minute) 1 2 3 4 (.error (.other "index loader down"))
      (fun _ => .error (.other "data loader down")) (fun s => .ok s) "u42" "alice-record" "u42"
      (fun _ => rfl) rfl (by decide) rfl (by decide) (by decide) (by decide)).1⟩

/-! ## TTL jitter -/

/-- Values of the `int64` range are left as they are. -/
theorem wrapInt64_id (x : Int) (hlo : -2 ^ 63 ≤ x) (hhi : x < 2 ^ 63) : wrapInt64 x = x := by
  unfold wrapInt64
  omega

/-- C5, as amended (jitter bound).  For every base TTL of at least 5
nanoseconds whose envelope `base + base/5 + 30s` fits `int64`, and every
outcome of the two draws, `getJitterTTL` returns a TTL with
`base ≤ ttl < base + base/5 + 30s`, which is strictly positive.  A base TTL
that is zero or negative is returned unchanged, so the TTL is then not
positive. -/
theorem getJitterTTL_envelope (baseTTL : Int) (r1 r2 : Nat)
    (hlo : 5 ≤ baseTTL) (hhi : baseTTL + baseTTL / 5 + 30 * Second ≤ 2 ^ 63) :
    (∃ ttl, getJitterTTL baseTTL r1 r2 = .ok ttl
      ∧ baseTTL ≤ ttl ∧ 0 < ttl ∧ ttl < baseTTL + baseTTL / 5 + 30 * Second)
    ∧ ∀ b : Int, b ≤ 0 → getJitterTTL b r1 r2 = .ok b := by
  constructor
  · have hq : Int.tdiv baseTTL 5 = baseTTL / 5 := Int.tdiv_eq_ediv (by omega) (by omega)
    have hqpos : 0 < baseTTL / 5 := by omega
    have hj0 : 0 ≤ (r1 : Int) % (baseTTL / 5) := Int.emod_nonneg _ (by omega)
    have hj1 : (r1 : Int) % (baseTTL / 5) < baseTTL / 5 := Int.emod_lt_of_pos _ hqpos
    have hn0 : 0 ≤ (r2 : Int) % 30 := by omega
    have hn1 : (r2 : Int) % 30 < 30 := by omega
    have h0 : ¬ baseTTL ≤ 0 := by omega
    have hq0 : ¬ baseTTL / 5 ≤ 0 := by omega
    have hval : getJitterTTL baseTTL r1 r2 = .ok (wrapInt64 (wrapInt64
        (baseTTL + (r1 : Int) % (baseTTL / 5)) + wrapInt64 ((r2 : Int) % 30 * Second))) := by
      simp [getJitterTTL, h0, hq, Int63n, hq0]
    simp only [Second] at hhi hval ⊢
    generalize (r1 : Int) % (baseTTL / 5) = j at hj0 hj1 hval
    generalize (r2 : Int) % 30 = n at hn0 hn1 hval
    have hw1 : wrapInt64 (n * 1000000000) = n * 1000000000 :=
      wrapInt64_id _ (by omega) (by omega)
    have hw2 : wrapInt64 (baseTTL + j) = baseTTL + j := wrapInt64_id _ (by omega) (by omega)
    have hw3 : wrapInt64 (baseTTL + j + n * 1000000000) = baseTTL + j + n * 1000000000 :=
      wrapInt64_id _ (by omega) (by omega)
    rw [hw1, hw2, hw3] at hval
    exact ⟨baseTTL + j + n * 1000000000, hval, by omega, by omega, by omega⟩
  · intro b hb
    simp [getJitterTTL, hb]

/-- The amended C5 at a base TTL of five minutes. -/
theorem getJitterTTL_envelope_witness :
    (5 : Int) ≤ 5 * Minute
    ∧ ∃ ttl, getJitterTTL (5 * Minute) 123456789012 47 = .ok ttl
      ∧ 5 * Minute ≤ ttl ∧ 0 < ttl ∧ ttl < 5 * Minute + 5 * Minute / 5 + 30 * Second :=
  ⟨by decide,
    (getJitterTTL_envelope (5 * Minute) 123456789012 47 (by decide) (by decide)).1⟩

/-- C5 as stated fails: for the base TTL 0 (and likewise for a negative one)
`getJitterTTL` returns the base itself, which is not strictly positive. -/
theorem getJitterTTL_envelope_counterexample :
    getJitterTTL 0 1 2 = .ok 0 ∧ getJitterTTL (-Second) 1 2 = .ok (-1000000000)
    ∧ ¬ ((0 : Int) < 0) := by
  decide

/-- A base TTL of 1 to 4 nanoseconds makes `getJitterTTL` call `rand.Int63n(0)`,
which panics. -/
theorem getJitterTTL_small_base_panics (r1 r2 : Nat) :
    getJitterTTL 1 r1 r2 = .panic "invalid argument to Int63n"
    ∧ getJitterTTL 4 r1 r2 = .panic "invalid argument to Int63n" := by
  constructor <;> simp [getJitterTTL, Int63n, Int.tdiv]

/-! ## Store outage on the read path -/

/-- A `GET` on a store that fails every command returns an error. -/
theorem get_outage (net : Net) (w : World) (key : String) (hdown : ∀ n, net n ≠ none) :
    w.Get net key = (none, w.issue (.get key)) := by
  cases h : net w.ops with
  | none => exact absurd h (hdown _)
  | some e => simp [World.Get, h]

/-- A `SET` on a store that fails every command changes no entry. -/
theorem set_outage (net : Net) (w : World) (key value : String) (ttl : Int)
    (hdown : ∀ n, net n ≠ none) :
    (w.Set net key value ttl).2 = w.issue (.set key value ttl)
    ∧ (w.Set net key value ttl).1 ≠ none := by
  cases h : net w.ops with
  | none => exact absurd h (hdown _)
  | some e => simp [World.Set, h]

/-- C6 (read-path store outage).  When every store command fails, `TakeByID`
calls the loader exactly once and returns the loader's outcome: the loader's
error `e` as it is, or the loader's value with a nil error; the store's error
is never returned and the keyspace is unchanged.  For a loaded value the base
TTL is outside 1..4 nanoseconds and the value survives its encoding. -/
theorem takeByID_store_outage {T : Type} (c : Codec T) (net : Net) (w : World)
    (entity : String) (id : AnyVal) (baseTTL : Int) (r1 r2 : Nat)
    (hdown : ∀ n, net n ≠ none) :
    (∀ e : GoError,
      (TakeByID c net w entity id baseTTL r1 r2 (.error e)).2 = .ok (c.zero, some e)
      ∧ (TakeByID c net w entity id baseTTL r1 r2 (.error e)).1.log.count .query
          = w.log.count .query + 1
      ∧ (TakeByID c net w entity id baseTTL r1 r2 (.error e)).1.entries = w.entries)
    ∧ (∀ (v : T) (bs : String), (baseTTL ≤ 0 ∨ 5 ≤ baseTTL) →
      c.marshal v = some bs → bs ≠ NotFoundPlaceholder → (c.unmarshal bs c.zero).1 = v →
      (TakeByID c net w entity id baseTTL r1 r2 (.ok v)).2 = .ok (v, none)
      ∧ (TakeByID c net w entity id baseTTL r1 r2 (.ok v)).1.log.count .query
          = w.log.count .query + 1
      ∧ (TakeByID c net w entity id baseTTL r1 r2 (.ok v)).1.entries = w.entries) := by
  have h1 := get_outage net w (BuildKey entity id) hdown
  have h2 := get_outage net (RecordCacheMiss (w.issue (.get (BuildKey entity id))) entity)
    (BuildKey entity id) hdown
  constructor
  · intro e
    obtain ⟨hs, _⟩ := set_outage net
      ((World.issue (RecordCacheMiss (w.issue (.get (BuildKey entity id))) entity)
        (.get (BuildKey entity id))).emit .query)
      (BuildKey entity id) NotFoundPlaceholder DefaultNotFoundTTL hdown
    cases hn : errorsIsNoRows e <;>
      simp only [TakeByID, h1, takeByIDMiss, sfGroupDo, takeByIDLoad, h2, hn, hs] <;>
      simp [RecordCacheMiss]
  · intro v bs httl hm hne hrt
    obtain ⟨ttl, hj⟩ := getJitterTTL_returns baseTTL r1 r2 httl
    obtain ⟨hs, herr⟩ := set_outage net
      ((World.issue (RecordCacheMiss (w.issue (.get (BuildKey entity id))) entity)
        (.get (BuildKey entity id))).emit .query)
      (BuildKey entity id) bs ttl hdown
    rcases hset : World.Set net
      ((World.issue (RecordCacheMiss (w.issue (.get (BuildKey entity id))) entity)
        (.get (BuildKey entity id))).emit .query)
      (BuildKey entity id) bs ttl with ⟨err, w3⟩
    rw [hset] at hs herr
    simp only at hs herr
    subst hs
    cases err with
    | none => exact absurd rfl herr
    | some e0 =>
      simp only [TakeByID, h1, takeByIDMiss, sfGroupDo, takeByIDLoad, h2, hj, hm,
        Option.getD_some, hset]
      simp [hne, hrt, RecordCacheMiss, RecordCacheError]

/-- C6 on a store that refuses every connection: the loader's value and the
loader's error both come back as they are. -/
theorem takeByID_store_outage_witness :
    (TakeByID strCodec netDown cachedWorld "user" (.int 7) (5 * Minute) 1 2 (.ok "alice")).2
      = .ok ("alice", none)
    ∧ (TakeByID strCodec netDown cachedWorld "user" (.int 7) (5 * Minute) 1 2
        (.error (.other "db timeout"))).2 = .ok ("", some (.other "db timeout")) :=
  ⟨((takeByID_store_outage strCodec netDown cachedWorld "user" (.int 7) (5 * Minute) 1 2
      (fun _ => by simp [netDown])).2 "alice" "alice" (Or.inr (by decide)) rfl (by decide)
      rfl).1,
    ((takeByID_store_outage strCodec netDown cachedWorld "user" (.int 7) (5 * Minute) 1 2
      (fun _ => by simp [netDown])).1 (.other "db timeout")).1⟩
/-! ## The write path -/

/-- Counting deletions touches the metrics only. -/
theorem foldl_recordCacheDelete {α : Type} (entity : String) (keys : List α) :
    ∀ w : World,
      (keys.foldl (fun acc _ => RecordCacheDelete acc entity) w).entries = w.entries
      ∧ (keys.foldl (fun acc _ => RecordCacheDelete acc entity) w).now = w.now
      ∧ (keys.foldl (fun acc _ => RecordCacheDelete acc entity) w).ops = w.ops
      ∧ (keys.foldl (fun acc _ => RecordCacheDelete acc entity) w).log = w.log := by
  induction keys with
  | nil => intro w; simp
  | cons _ rest ih =>
    intro w
    simpa [RecordCacheDelete] using ih (RecordCacheDelete w entity)

/-- C7, as amended (invalidation store errors).  When the write function
succeeds, `ExecByID` and `ExecByIDWithIndexes` return the result of the cache
delete: nil when the delete command succeeds and the store's error when it
fails. -/
theorem exec_returns_delete_result (net : Net) (w : World) (entity : String) (id : AnyVal)
    (indexes : List String) :
    (ExecByID net w entity id none).2
        = ((w.emit .exec).Del net [BuildKey entity id]).1
    ∧ (ExecByIDWithIndexes net w entity id indexes none).2
        = ((w.emit .exec).Del net (BuildKey entity id :: indexes)).1
    ∧ (ExecByID net w entity id none).2 = net w.ops
    ∧ (ExecByIDWithIndexes net w entity id indexes none).2 = net w.ops := by
  cases h : net w.ops <;> simp [ExecByID, ExecByIDWithIndexes, World.Del, h]

/-- C7 as stated fails: with the write function succeeding and the store
refusing the delete, both functions return the store's error instead of nil. -/
theorem exec_returns_delete_result_counterexample :
    (ExecByID netDown cachedWorld "user" (.int 7) none).2
        = some (.other "dial tcp: connection refused")
    ∧ (ExecByIDWithIndexes netDown cachedWorld "user" (.int 7)
        ["cache:user:email:a@example.com"] none).2
        = some (.other "dial tcp: connection refused") := by
  decide

/-- C8 (failed write).  When the write function returns an error `e`,
`ExecByID` and `ExecByIDWithIndexes` return `e` itself and do nothing but call
the write function: no store command is issued, and the keyspace, the clock
and the metrics are as before. -/
theorem exec_failed_write (net : Net) (w : World) (entity : String) (id : AnyVal)
    (indexes : List String) (e : GoError) :
    ExecByID net w entity id (some e) = (w.emit .exec, some e)
    ∧ ExecByIDWithIndexes net w entity id indexes (some e) = (w.emit .exec, some e)
    ∧ (w.emit .exec).entries = w.entries
    ∧ (w.emit .exec).ops = w.ops
    ∧ (w.emit .exec).now = w.now
    ∧ (w.emit .exec).metrics = w.metrics
    ∧ (w.emit .exec).log = w.log ++ [.exec] := by
  simp [ExecByID, ExecByIDWithIndexes]

/-- C9 (key set of `ExecByIDWithIndexes`).  When the write function succeeds,
the call issues exactly one store command after the write: a delete whose key
list is `BuildKey(entity, id)` followed by the supplied index keys in the
supplied order; when that command succeeds exactly those keys are removed. -/
theorem execByIDWithIndexes_keys (net : Net) (w : World) (entity : String) (id : AnyVal)
    (indexes : List String) :
    (ExecByIDWithIndexes net w entity id indexes none).1.log
        = w.log ++ [.exec, .del (BuildKey entity id :: indexes)]
    ∧ (ExecByIDWithIndexes net w entity id indexes none).1.ops = w.ops + 1
    ∧ (net w.ops = none →
        (ExecByIDWithIndexes net w entity id indexes none).1.entries
          = erase (BuildKey entity id :: indexes) w.entries)
    ∧ (net w.ops ≠ none →
        (ExecByIDWithIndexes net w entity id indexes none).1.entries = w.entries) := by
  cases h : net w.ops with
  | none =>
    simp only [ExecByIDWithIndexes, World.Del, emit_ops, h, List.singleton_append,
      List.foldl_cons, foldl_recordCacheDelete entity indexes]
    simp [RecordCacheDelete, h]
  | some e =>
    simp [ExecByIDWithIndexes, World.Del, h, RecordCacheError]

/-- C9 for the update of user 7 with two index keys. -/
theorem execByIDWithIndexes_keys_witness :
    (ExecByIDWithIndexes netUp indexedWorld "user" (.str "u42")
      ["cache:user:username:alice", "cache:user:email:a@example.com"] none).1.log
      = [.exec, .del ["cache:user:u42", "cache:user:username:alice",
          "cache:user:email:a@example.com"]]
    ∧ (ExecByIDWithIndexes netUp indexedWorld "user" (.str "u42")
      ["cache:user:username:alice", "cache:user:email:a@example.com"] none).1.entries = [] :=
  ⟨(execByIDWithIndexes_keys netUp indexedWorld "user" (.str "u42")
      ["cache:user:username:alice", "cache:user:email:a@example.com"]).1,
    (execByIDWithIndexes_keys netUp indexedWorld "user" (.str "u42")
      ["cache:user:username:alice", "cache:user:email:a@example.com"]).2.2.1 rfl⟩

/-! ## Corrupt entries -/

/-- A key that was just deleted is not found. -/
theorem find_erase_self (key : String) (es : List (String × Entry)) :
    find key (erase [key] es) = none :=
  find_erase_mem key [key] es (by simp)

/-- The coalesced load on an absent key with a failing loader: the error comes
back with `data` untouched, and the placeholder is written for a not-found
error only. -/
theorem takeByIDMiss_error {T : Type} (c : Codec T) (net : Net) (w : World)
    (key entity : String) (baseTTL : Int) (r1 r2 : Nat) (e : GoError) (data : T)
    (habs : w.read key = none) :
    (takeByIDMiss c net w key entity baseTTL r1 r2 (.error e) data).2 = .ok (data, some e)
    ∧ (takeByIDMiss c net w key entity baseTTL r1 r2 (.error e) data).1.log
        = w.log ++ [.get key, .query]
          ++ (if errorsIsNoRows e then [.set key NotFoundPlaceholder DefaultNotFoundTTL]
              else []) := by
  have h1 := get_absent net w key habs
  cases hn : errorsIsNoRows e <;>
    simp [takeByIDMiss, sfGroupDo, takeByIDLoad, h1, hn, set_log]

/-- The coalesced load on an absent key of a working store with a loader that
returns `v`: the encoding of `v` is written under the key and decoded into
`data`. -/
theorem takeByIDMiss_loaded {T : Type} (c : Codec T) (net : Net) (w : World)
    (key entity : String) (baseTTL : Int) (r1 r2 : Nat) (v : T) (bs : String) (ttl : Int)
    (data : T) (hnet : ∀ n, net n = none)
    (habs : w.read key = none) (httl : getJitterTTL baseTTL r1 r2 = .ok ttl)
    (hm : c.marshal v = some bs) (hne : bs ≠ NotFoundPlaceholder) :
    (takeByIDMiss c net w key entity baseTTL r1 r2 (.ok v) data).2
        = .ok ((c.unmarshal bs data).1, none)
    ∧ (takeByIDMiss c net w key entity baseTTL r1 r2 (.ok v) data).1.log
        = w.log ++ [.get key, .query, .set key bs ttl]
    ∧ find key (takeByIDMiss c net w key entity baseTTL r1 r2 (.ok v) data).1.entries
        = some ⟨bs, ttl, w.now⟩ := by
  have h1 := get_absent net w key habs
  simp [takeByIDMiss, sfGroupDo, takeByIDLoad, h1, httl, hm, World.Set, hnet, hne,
    RecordCacheSet, find]

/-- C10 (corrupt entry recovery).  On a working store, when the key holds a
string that is not the placeholder and does not decode, `TakeByID` reads it,
deletes the key, reads again, and calls the loader once.  A loader error `e`
is returned as it is.  A loaded value is written back under the key as its
fresh encoding with the jittered TTL and is returned with a nil error, given
that decoding that encoding into the variable left by the failed decoding
yields the value. -/
theorem takeByID_corrupt_entry {T : Type} (c : Codec T) (net : Net) (w : World)
    (entity : String) (id : AnyVal) (baseTTL : Int) (r1 r2 : Nat) (s : String) (d : T)
    (hnet : ∀ n, net n = none)
    (hs : w.read (BuildKey entity id) = some s)
    (hsent : s ≠ NotFoundPlaceholder)
    (hcorrupt : c.unmarshal s c.zero = (d, false)) :
    (∀ e : GoError,
      (TakeByID c net w entity id baseTTL r1 r2 (.error e)).2 = .ok (d, some e)
      ∧ (TakeByID c net w entity id baseTTL r1 r2 (.error e)).1.log
          = w.log ++ [.get (BuildKey entity id), .del [BuildKey entity id],
              .get (BuildKey entity id), .query]
            ++ (if errorsIsNoRows e then
                [.set (BuildKey entity id) NotFoundPlaceholder DefaultNotFoundTTL] else []))
    ∧ (∀ (v : T) (bs : String), (baseTTL ≤ 0 ∨ 5 ≤ baseTTL) →
      c.marshal v = some bs → bs ≠ NotFoundPlaceholder → (c.unmarshal bs d).1 = v →
      (TakeByID c net w entity id baseTTL r1 r2 (.ok v)).2 = .ok (v, none)
      ∧ ∃ ttl, getJitterTTL baseTTL r1 r2 = .ok ttl
        ∧ (TakeByID c net w entity id baseTTL r1 r2 (.ok v)).1.log
            = w.log ++ [.get (BuildKey entity id), .del [BuildKey entity id],
                .get (BuildKey entity id), .query, .set (BuildKey entity id) bs ttl]
        ∧ find (BuildKey entity id) (TakeByID c net w entity id baseTTL r1 r2 (.ok v)).1.entries
            = some ⟨bs, ttl, w.now⟩) := by
  have h1 : w.Get net (BuildKey entity id) = (some s, w.issue (.get (BuildKey entity id))) := by
    rw [get_up net w _ (hnet _), hs]
  have hstep : ∀ q : Except GoError T, TakeByID c net w entity id baseTTL r1 r2 q
      = takeByIDMiss c net
          (RecordCacheError ((RecordCacheHit (w.issue (.get (BuildKey entity id))) entity).Del
            net [BuildKey entity id]).2 "get" "deserialization_error")
          (BuildKey entity id) entity baseTTL r1 r2 q d := by
    intro q
    simp only [TakeByID, h1, hsent, if_false, hcorrupt]
  have hdel : ((RecordCacheHit (w.issue (.get (BuildKey entity id))) entity).Del
      net [BuildKey entity id]).2
      = ({ (RecordCacheHit (w.issue (.get (BuildKey entity id))) entity).issue
            (.del [BuildKey entity id]) with
          entries := erase [BuildKey entity id] w.entries } : World) := by
    simp [World.Del, hnet, RecordCacheHit]
  have habs : (RecordCacheError ((RecordCacheHit (w.issue (.get (BuildKey entity id)))
      entity).Del net [BuildKey entity id]).2 "get" "deserialization_error").read
      (BuildKey entity id) = none := by
    rw [hdel]
    simp [RecordCacheError, World.read, find_erase_self]
  have hlog : (RecordCacheError ((RecordCacheHit (w.issue (.get (BuildKey entity id)))
      entity).Del net [BuildKey entity id]).2 "get" "deserialization_error").log
      = w.log ++ [.get (BuildKey entity id), .del [BuildKey entity id]] := by
    rw [hdel]
    simp [RecordCacheError, RecordCacheHit]
  have hnow : (RecordCacheError ((RecordCacheHit (w.issue (.get (BuildKey entity id)))
      entity).Del net [BuildKey entity id]).2 "get" "deserialization_error").now = w.now := by
    rw [hdel]
    simp [RecordCacheError, RecordCacheHit]
  constructor
  · intro e
    obtain ⟨hres, hl⟩ := takeByIDMiss_error c net _ (BuildKey entity id) entity baseTTL r1 r2 e d
      habs
    rw [hstep, hres, hl, hlog]
    simp
  · intro v bs httl hm hne hrt
    obtain ⟨ttl, hj⟩ := getJitterTTL_returns baseTTL r1 r2 httl
    obtain ⟨hres, hl, hf⟩ := takeByIDMiss_loaded c net _ (BuildKey entity id) entity baseTTL
      r1 r2 v bs ttl d hnet habs hj hm hne
    rw [hstep, hres, hrt]
    refine ⟨rfl, ttl, hj, ?_, ?_⟩
    · rw [hl, hlog]; simp
    · rw [hf, hnow]

/-- C10 for user 7, whose entry does not decode: the loaded record is returned
and the loader's error is returned. -/
theorem takeByID_corrupt_entry_witness :
    corruptWorld.read (BuildKey "user" (.int 7)) = some "!garbage"
    ∧ strCodec.unmarshal "!garbage" strCodec.zero = ("", false)
    ∧ (TakeByID strCodec netUp corruptWorld "user" (.int 7) (5 * Minute) 1 2 (.ok "alice")).2
        = .ok ("alice", none)
    ∧ (TakeByID strCodec netUp corruptWorld "user" (.int 7) (5 * Minute) 1 2
        (.error .errNoRows)).2 = .ok ("", some .errNoRows) :=
  ⟨by decide, rfl,
    ((takeByID_corrupt_entry strCodec netUp corruptWorld "user" (.int 7) (5 * Minute) 1 2
      "!garbage" "" (fun _ => rfl) (by decide) (by decide) rfl).2 "alice" "alice"
      (Or.inr (by decide)) rfl (by decide) rfl).1,
    ((takeByID_corrupt_entry strCodec netUp corruptWorld "user" (.int 7) (5 * Minute) 1 2
      "!garbage" "" (fun _ => rfl) (by decide) (by decide) rfl).1 .errNoRows).1⟩

/-! ## Loader errors -/

/-- A `SET` that is not issued leaves the keyspace alone; the coalesced load
with a failing loader changes the keyspace only by writing the placeholder. -/
theorem takeByIDMiss_error_entries {T : Type} (c : Codec T) (net : Net) (w : World)
    (key entity : String) (baseTTL : Int) (r1 r2 : Nat) (e : GoError) (data : T)
    (habs : w.read key = none) (hn : errorsIsNoRows e = false) :
    (takeByIDMiss c net w key entity baseTTL r1 r2 (.error e) data).1.entries = w.entries := by
  have h1 := get_absent net w key habs
  simp [takeByIDMiss, sfGroupDo, takeByIDLoad, h1, hn]

/-- C11 (loader error propagation).  When the key is absent and the loader
returns an error `e`, `TakeByID` returns `e` itself, whatever the store does.
When `e` is not a not-found error (`errors.Is(e, sql.ErrNoRows)` is false), the
call issues two reads and the loader call and no write, and the keyspace is
unchanged; when it is, the only write is that of the placeholder. -/
theorem takeByID_loader_error {T : Type} (c : Codec T) (net : Net) (w : World)
    (entity : String) (id : AnyVal) (baseTTL : Int) (r1 r2 : Nat) (e : GoError)
    (habs : w.read (BuildKey entity id) = none) :
    (TakeByID c net w entity id baseTTL r1 r2 (.error e)).2 = .ok (c.zero, some e)
    ∧ (errorsIsNoRows e = false →
        (TakeByID c net w entity id baseTTL r1 r2 (.error e)).1.log
          = w.log ++ [.get (BuildKey entity id), .get (BuildKey entity id), .query]
        ∧ (TakeByID c net w entity id baseTTL r1 r2 (.error e)).1.entries = w.entries)
    ∧ (errorsIsNoRows e = true →
        (TakeByID c net w entity id baseTTL r1 r2 (.error e)).1.log
          = w.log ++ [.get (BuildKey entity id), .get (BuildKey entity id), .query,
              .set (BuildKey entity id) NotFoundPlaceholder DefaultNotFoundTTL]) := by
  have h1 := get_absent net w (BuildKey entity id) habs
  have hstep : TakeByID c net w entity id baseTTL r1 r2 (.error e)
      = takeByIDMiss c net (RecordCacheMiss (w.issue (.get (BuildKey entity id))) entity)
          (BuildKey entity id) entity baseTTL r1 r2 (.error e) c.zero := by
    simp only [TakeByID, h1]
  have habs2 : (RecordCacheMiss (w.issue (.get (BuildKey entity id))) entity).read
      (BuildKey entity id) = none := habs
  obtain ⟨hres, hlog⟩ := takeByIDMiss_error c net _ (BuildKey entity id) entity baseTTL r1 r2 e
    c.zero habs2
  refine ⟨by rw [hstep, hres], ?_, ?_⟩
  · intro hn
    constructor
    · rw [hstep, hlog]
      simp [hn, RecordCacheMiss]
    · rw [hstep, takeByIDMiss_error_entries c net _ (BuildKey entity id) entity baseTTL r1 r2 e
        c.zero habs2 hn]
      simp [RecordCacheMiss]
  · intro hn
    rw [hstep, hlog]
    simp [hn, RecordCacheMiss]

/-- C11 for user 7 on an empty working store with a loader that times out. -/
theorem takeByID_loader_error_witness :
    emptyWorld.read (BuildKey "user" (.int 7)) = none
    ∧ (TakeByID strCodec netUp emptyWorld "user" (.int 7) (5 * Minute) 1 2
        (.error (.wrap "repository: " (.other "context deadline exceeded")))).2
      = .ok ("", some (.wrap "repository: " (.other "context deadline exceeded")))
    ∧ (TakeByID strCodec netUp emptyWorld "user" (.int 7) (5 * Minute) 1 2
        (.error (.wrap "repository: " (.other "context deadline exceeded")))).1.entries = [] :=
  ⟨rfl,
    (takeByID_loader_error strCodec netUp emptyWorld "user" (.int 7) (5 * Minute) 1 2
      (.wrap "repository: " (.other "context deadline exceeded")) rfl).1,
    ((takeByID_loader_error strCodec netUp emptyWorld "user" (.int 7) (5 * Minute) 1 2
      (.wrap "repository: " (.other "context deadline exceeded")) rfl).2.1 rfl).2⟩

/-! ## Conversion errors -/

/-- C12, as amended (conversion error).  When the index key resolves to a
string other than the placeholder and `idConverter` fails on it with an error
`c`, `TakeByIndex` returns the error `ID conversion failed: %w` wrapping `c`
and stops there: the world is the one the index resolution left, so the data
loader is not called and the index is not resolved again.  The returned error
satisfies `errors.Is(err, sql.ErrNoRows)` exactly when `c` does, so it is
distinct from not-found whenever `c` is not itself a not-found error. -/
theorem takeByIndex_conversion_error {T ID : Type} (c : Codec T) (toAny : ID → AnyVal)
    (net : Net) (w w1 : World) (entity field : String) (value : AnyVal) (baseTTL : Int)
    (r1 r2 r3 r4 : Nat) (indexQueryFn : Except GoError ID)
    (dataQueryFn : ID → Except GoError T) (idConverter : String → Except GoError ID)
    (idStr : String) (convertErr : GoError)
    (hres : takeByIndexLoad toAny net w (BuildIndexKey entity field value) baseTTL r1 r2
      indexQueryFn = (w1, .ok (.ok idStr)))
    (hid : idStr ≠ NotFoundPlaceholder)
    (hconv : idConverter idStr = .error convertErr) :
    TakeByIndex c toAny net w entity field value baseTTL r1 r2 r3 r4 indexQueryFn
        dataQueryFn idConverter
      = (w1, .ok (c.zero, some (.wrap "ID conversion failed: " convertErr)))
    ∧ errorsIsNoRows (.wrap "ID conversion failed: " convertErr) = errorsIsNoRows convertErr
    ∧ (errorsIsNoRows convertErr = false →
        errorsIsNoRows (.wrap "ID conversion failed: " convertErr) = false)
    ∧ GoError.wrap "ID conversion failed: " convertErr ≠ .errNoRows := by
  refine ⟨?_, rfl, fun h => h, by simp⟩
  simp [TakeByIndex, sfGroupDo, hres, hid, hconv]

/-- The amended C12 for the username `alice`: the cached index string `u42`
is refused by the converter and neither loader is called. -/
theorem takeByIndex_conversion_error_witness :
    (TakeByIndex strCodec AnyVal.str netUp indexedWorld "user" "username" (.str "alice")
        (5 * Minute) 1 2 3 4 (.ok "u43") (fun _ => .ok "fresh")
        (fun _ => .error (.other "invalid digit"))).2
      = .ok ("", some (.wrap "ID conversion failed: " (.other "invalid digit")))
    ∧ (TakeByIndex strCodec AnyVal.str netUp indexedWorld "user" "username" (.str "alice")
        (5 * Minute) 1 2 3 4 (.ok "u43") (fun _ => .ok "fresh")
        (fun _ => .error (.other "invalid digit"))).1.log
      = [.get "cache:user:username:alice"] :=
  ⟨congrArg Prod.snd
      (takeByIndex_conversion_error strCodec AnyVal.str netUp indexedWorld
        (indexedWorld.issue (.get "cache:user:username:alice")) "user" "username" (.str "alice")
        (5 * Minute) 1 2 3 4 (.ok "u43") (fun _ => .ok "fresh")
        (fun _ => .error (.other "invalid digit")) "u42" (.other "invalid digit")
        rfl (by decide) rfl).1,
    congrArg (fun r => r.1.log)
      (takeByIndex_conversion_error strCodec AnyVal.str netUp indexedWorld
        (indexedWorld.issue (.get "cache:user:username:alice")) "user" "username" (.str "alice")
        (5 * Minute) 1 2 3 4 (.ok "u43") (fun _ => .ok "fresh")
        (fun _ => .error (.other "invalid digit")) "u42" (.other "invalid digit")
        rfl (by decide) rfl).1⟩

/-- C12 as stated fails: a converter that fails with `sql.ErrNoRows` makes
`TakeByIndex` return an error for which `errors.Is(err, sql.ErrNoRows)` holds,
because the error is wrapped with `%w`. -/
theorem takeByIndex_conversion_error_counterexample :
    (TakeByIndex strCodec AnyVal.str netUp indexedWorld "user" "username" (.str "alice")
        (5 * Minute) 1 2 3 4 (.ok "u43") (fun _ => .ok "fresh")
        (fun _ => .error .errNoRows)).2
      = .ok ("", some (.wrap "ID conversion failed: " .errNoRows))
    ∧ errorsIsNoRows (.wrap "ID conversion failed: " .errNoRows) = true :=
  ⟨rfl, rfl⟩

/-! ## TTL of the index entry against the primary entry -/

/-- The shape of a jittered TTL: for a base of at least 5 nanoseconds whose
envelope fits `int64`, the result is the base plus a jitter below a fifth of
the base plus a whole number of seconds below 30. -/
theorem getJitterTTL_shape (baseTTL : Int) (r1 r2 : Nat)
    (hlo : 5 ≤ baseTTL) (hhi : baseTTL + baseTTL / 5 + 30 * Second ≤ 2 ^ 63) :
    ∃ j n : Int, getJitterTTL baseTTL r1 r2 = .ok (baseTTL + j + n * Second)
      ∧ 0 ≤ j ∧ j < baseTTL / 5 ∧ 0 ≤ n ∧ n < 30 := by
  have hq : Int.tdiv baseTTL 5 = baseTTL / 5 := Int.tdiv_eq_ediv (by omega) (by omega)
  have hqpos : 0 < baseTTL / 5 := by omega
  have hj0 : 0 ≤ (r1 : Int) % (baseTTL / 5) := Int.emod_nonneg _ (by omega)
  have hj1 : (r1 : Int) % (baseTTL / 5) < baseTTL / 5 := Int.emod_lt_of_pos _ hqpos
  have hn0 : 0 ≤ (r2 : Int) % 30 := by omega
  have hn1 : (r2 : Int) % 30 < 30 := by omega
  have h0 : ¬ baseTTL ≤ 0 := by omega
  have hq0 : ¬ baseTTL / 5 ≤ 0 := by omega
  have hval : getJitterTTL baseTTL r1 r2 = .ok (wrapInt64 (wrapInt64
      (baseTTL + (r1 : Int) % (baseTTL / 5)) + wrapInt64 ((r2 : Int) % 30 * Second))) := by
    simp [getJitterTTL, h0, hq, Int63n, hq0]
  simp only [Second] at hhi hval ⊢
  generalize (r1 : Int) % (baseTTL / 5) = j at hj0 hj1 hval
  generalize (r2 : Int) % 30 = n at hn0 hn1 hval
  have hw1 : wrapInt64 (n * 1000000000) = n * 1000000000 :=
    wrapInt64_id _ (by omega) (by omega)
  have hw2 : wrapInt64 (baseTTL + j) = baseTTL + j := wrapInt64_id _ (by omega) (by omega)
  have hw3 : wrapInt64 (baseTTL + j + n * 1000000000) = baseTTL + j + n * 1000000000 :=
    wrapInt64_id _ (by omega) (by omega)
  rw [hw1, hw2, hw3] at hval
  exact ⟨j, n, hval, hj0, hj1, hn0, hn1⟩

/-- C13, as amended (index entry outlives data entry).  For every base TTL of
at least 36.25 seconds (`4 * base ≥ 145s`) whose doubled envelope fits `int64`,
and every outcome of the four draws, the TTL that `TakeByIndex` computes for
the index entry, `getJitterTTL(2 * base)`, is at least the TTL that `TakeByID`
computes for the primary entry, `getJitterTTL(base)`. -/
theorem index_ttl_outlives (baseTTL : Int) (r1 r2 r3 r4 : Nat)
    (hlo : 145 * Second ≤ 4 * baseTTL)
    (hhi : 2 * baseTTL + 2 * baseTTL / 5 + 30 * Second ≤ 2 ^ 63) :
    ∃ indexTTL primaryTTL : Int,
      getJitterTTL (wrapInt64 (baseTTL * 2)) r1 r2 = .ok indexTTL
      ∧ getJitterTTL baseTTL r3 r4 = .ok primaryTTL
      ∧ primaryTTL ≤ indexTTL := by
  simp only [Second] at hlo hhi
  have hdouble : wrapInt64 (baseTTL * 2) = 2 * baseTTL :=
    by rw [wrapInt64_id _ (by omega) (by omega)]; ring
  obtain ⟨j1, n1, hi, hj10, _, hn10, _⟩ := getJitterTTL_shape (2 * baseTTL) r1 r2 (by omega)
    (by simp only [Second]; omega)
  obtain ⟨j2, n2, hp, _, hj21, _, hn21⟩ := getJitterTTL_shape baseTTL r3 r4 (by omega)
    (by simp only [Second]; omega)
  refine ⟨_, _, by rw [hdouble]; exact hi, hp, ?_⟩
  simp only [Second]
  omega

/-- The amended C13 at a base TTL of five minutes. -/
theorem index_ttl_outlives_witness :
    145 * Second ≤ 4 * (5 * Minute)
    ∧ ∃ indexTTL primaryTTL : Int,
      getJitterTTL (wrapInt64 (5 * Minute * 2)) 0 0 = .ok indexTTL
      ∧ getJitterTTL (5 * Minute) 59999999999 29 = .ok primaryTTL
      ∧ primaryTTL ≤ indexTTL :=
  ⟨by decide, index_ttl_outlives (5 * Minute) 0 0 59999999999 29 (by decide) (by decide)⟩

/-- C13 as stated fails: for a base TTL of 10 seconds, with the draws 0 and 0
for the index entry and 0 and 29 for the primary entry, the index entry gets 20
seconds and the primary entry 39 seconds, and one `TakeByIndex` call on an
empty working store writes both entries with these TTLs. -/
theorem index_ttl_outlives_counterexample :
    getJitterTTL (wrapInt64 (10 * Second * 2)) 0 0 = .ok (20 * Second)
    ∧ getJitterTTL (10 * Second) 0 29 = .ok (39 * Second)
    ∧ (20 * Second < 39 * Second)
    ∧ (TakeByIndex strCodec AnyVal.str netUp emptyWorld "user" "username" (.str "alice")
        (10 * Second) 0 0 0 29 (.ok "u42") (fun _ => .ok "alice-record")
        (fun s => .ok s)).1.entries
      = [("cache:user:u42", ⟨"alice-record", 39000000000, 0⟩),
          ("cache:user:username:alice", ⟨"u42", 20000000000, 0⟩)] := by
  decide

/-! ## The placeholder against stored payloads -/

/-- A decimal digit is not rendered as `*`. -/
theorem digitChar_ne_star (d : Nat) (h : d < 10) : Nat.digitChar d ≠ '*' := by
  interval_cases d <;> decide

/-- The digits of a decimal rendering contain no `*`. -/
theorem toDigitsCore_ne_star (fuel : Nat) : ∀ (n : Nat) (ds : List Char),
    (∀ c ∈ ds, c ≠ '*') → ∀ c ∈ Nat.toDigitsCore 10 fuel n ds, c ≠ '*' := by
  induction fuel with
  | zero => intro n ds h; simpa [Nat.toDigitsCore] using h
  | succ fuel ih =>
    intro n ds h
    have hd : Nat.digitChar (n % 10) ≠ '*' := digitChar_ne_star _ (Nat.mod_lt _ (by decide))
    have hcons : ∀ c ∈ Nat.digitChar (n % 10) :: ds, c ≠ '*' := by
      intro c hc
      rcases List.mem_cons.mp hc with h1 | h1
      · rw [h1]; exact hd
      · exact h c h1
    simp only [Nat.toDigitsCore]
    split
    · exact hcons
    · exact ih _ _ hcons

/-- The decimal rendering of a natural number contains no `*`. -/
theorem nat_repr_data_ne_star (n : Nat) : ∀ c ∈ (Nat.repr n).data, c ≠ '*' := by
  simpa [Nat.repr, Nat.toDigits, List.asString] using
    toDigitsCore_ne_star (n + 1) n [] (by simp)

/-- The decimal rendering of an integer is not the one-character string `*`. -/
theorem int_data_ne_star (n : Int) : (toString n).data ≠ ['*'] := by
  intro hd
  cases n with
  | ofNat m =>
    have h2 : (toString (Int.ofNat m)).data = (Nat.repr m).data := rfl
    rw [h2] at hd
    exact nat_repr_data_ne_star m '*' (by simp [hd]) rfl
  | negSucc m =>
    have h2 : (toString (Int.negSucc m)).data = '-' :: (Nat.repr (m + 1)).data := rfl
    rw [h2] at hd
    simp at hd

/-- No JSON text is the placeholder. -/
theorem json_render_ne_placeholder (j : Json) : j.render ≠ NotFoundPlaceholder := by
  intro h
  have hd : j.encode = ['*'] := congrArg String.data h
  cases j with
  | null => simp [Json.encode] at hd
  | bool b => cases b <;> simp [Json.encode] at hd
  | num n => exact int_data_ne_star n (by simpa [Json.encode] using hd)
  | str s => simp [Json.encode, quoteChar] at hd
  | arr items => simp [Json.encode] at hd
  | obj fields => simp [Json.encode] at hd

/-- C14, as amended (placeholder against payloads).  For a codec that encodes
through JSON, the string `TakeByID` stores for a loaded value (its JSON text,
or the empty string when encoding fails) is never the placeholder `*`, so a
load of an absent key never comes back as not-found; and the `%v` rendering of
an `int64` identifier, the identifier type of the repository's index reads, is
never the placeholder. -/
theorem placeholder_distinct {T : Type} (c : Codec T) (toJson : T → Option Json)
    (hjson : MarshalsJson c toJson) (v : T) (n : Int) :
    (c.marshal v).getD "" ≠ NotFoundPlaceholder
    ∧ fmtV (.int n) ≠ NotFoundPlaceholder
    ∧ ∀ (net : Net) (w : World) (entity : String) (id : AnyVal) (baseTTL : Int)
        (r1 r2 : Nat), w.read (BuildKey entity id) = none → (baseTTL ≤ 0 ∨ 5 ≤ baseTTL) →
        (TakeByID c net w entity id baseTTL r1 r2 (.ok v)).2
          = .ok ((c.unmarshal ((c.marshal v).getD "") c.zero).1, none) := by
  have hstored : (c.marshal v).getD "" ≠ NotFoundPlaceholder := by
    rw [hjson v]
    cases toJson v with
    | none => simp [NotFoundPlaceholder]
    | some j => simpa using json_render_ne_placeholder j
  refine ⟨hstored, ?_, ?_⟩
  · intro h
    exact int_data_ne_star n (congrArg String.data h)
  · intro net w entity id baseTTL r1 r2 habs httl
    obtain ⟨ttl, hj⟩ := getJitterTTL_returns baseTTL r1 r2 httl
    rw [(takeByID_absent_loaded c net w entity id baseTTL r1 r2 v ttl habs hj).1]
    simp [hitResult, hstored]

/-- The amended C14 for the cached user count 42 and the identifier 42. -/
theorem placeholder_distinct_witness :
    MarshalsJson countCodec (fun n => some (.num n))
    ∧ (countCodec.marshal 42).getD "" ≠ NotFoundPlaceholder
    ∧ fmtV (.int 42) ≠ NotFoundPlaceholder :=
  ⟨fun _ => rfl,
    (placeholder_distinct countCodec (fun n => some (.num n)) (fun _ => rfl) 42 42).1,
    (placeholder_distinct countCodec (fun n => some (.num n)) (fun _ => rfl) 42 42).2.1⟩

/-- C14 as stated fails: the `%v` rendering of the string identifier `*` is the
placeholder, so when the index loader finds that identifier `TakeByIndex`
stores `*` under the index key and reports not-found without calling the data
loader. -/
theorem placeholder_distinct_counterexample :
    fmtV (.str "*") = NotFoundPlaceholder
    ∧ (TakeByIndex strCodec AnyVal.str netUp emptyWorld "user" "username" (.str "alice")
        (5 * Minute) 0 0 0 0 (.ok "*") (fun _ => .ok "alice-record") (fun s => .ok s)).2
      = .ok ("", some .errNoRows)
    ∧ (TakeByIndex strCodec AnyVal.str netUp emptyWorld "user" "username" (.str "alice")
        (5 * Minute) 0 0 0 0 (.ok "*") (fun _ => .ok "alice-record") (fun s => .ok s)).1.log
      = [.get "cache:user:username:alice", .indexQuery,
          .set "cache:user:username:alice" "*" 600000000000] := by
  refine ⟨rfl, rfl, ?_⟩
  decide

/-! ## Key construction -/

/-- Splitting at the first colon: two texts that agree and whose parts before
the separating colon hold no colon have the same parts. -/
theorem split_at_colon : ∀ (a1 a2 b1 b2 : List Char), ':' ∉ a1 → ':' ∉ a2 →
    a1 ++ ':' :: b1 = a2 ++ ':' :: b2 → a1 = a2 ∧ b1 = b2 := by
  intro a1
  induction a1 with
  | nil =>
    intro a2 b1 b2 _ h2 h
    cases a2 with
    | nil => simpa using h
    | cons x xs =>
      simp only [List.nil_append, List.cons_append, List.cons.injEq] at h
      exact absurd (by simp [← h.1]) h2
  | cons y ys ih =>
    intro a2 b1 b2 h1 h2 h
    cases a2 with
    | nil =>
      simp only [List.nil_append, List.cons_append, List.cons.injEq] at h
      exact absurd (by simp [h.1]) h1
    | cons x xs =>
      simp only [List.cons_append, List.cons.injEq] at h
      obtain ⟨hxy, hrest⟩ := h
      have hys : ':' ∉ ys := fun hm => h1 (List.mem_cons_of_mem _ hm)
      have hxs : ':' ∉ xs := fun hm => h2 (List.mem_cons_of_mem _ hm)
      obtain ⟨ha, hb⟩ := ih xs b1 b2 hys hxs hrest
      exact ⟨by rw [hxy, ha], hb⟩

/-- The characters of a primary key. -/
theorem buildKey_data (entity : String) (id : AnyVal) :
    (BuildKey entity id).data = "cache:".data ++ (entity.data ++ ':' :: (fmtV id).data) := by
  simp [BuildKey, String.data_append]

/-- The characters of an index key. -/
theorem buildIndexKey_data (entity field : String) (value : AnyVal) :
    (BuildIndexKey entity field value).data
      = "cache:".data ++ (entity.data ++ ':' :: (field.data ++ ':' :: (fmtV value).data)) := by
  simp [BuildIndexKey, String.data_append]

/-- C15, as amended (key builder injectivity).  `BuildKey(entity, id)` is
`cache:` + entity + `:` + the `%v` rendering of id.  For entity names that
contain no colon, equal primary keys have equal entity names and equal
identifier renderings; and a primary key whose identifier rendering contains
no colon either is different from every index key with a colon-free entity
name. -/
theorem buildKey_injective (entity1 entity2 field : String) (id1 id2 value : AnyVal)
    (h1 : ':' ∉ entity1.data) (h2 : ':' ∉ entity2.data) :
    BuildKey entity1 id1 = "cache:" ++ entity1 ++ ":" ++ fmtV id1
    ∧ (BuildKey entity1 id1 = BuildKey entity2 id2 →
        entity1 = entity2 ∧ fmtV id1 = fmtV id2)
    ∧ (':' ∉ (fmtV id1).data → BuildKey entity1 id1 ≠ BuildIndexKey entity2 field value) := by
  refine ⟨rfl, ?_, ?_⟩
  · intro h
    have hd := congrArg String.data h
    rw [buildKey_data, buildKey_data] at hd
    obtain ⟨he, hi⟩ := split_at_colon _ _ _ _ h1 h2 (List.append_cancel_left hd)
    exact ⟨String.ext he, String.ext hi⟩
  · intro hid h
    have hd := congrArg String.data h
    rw [buildKey_data, buildIndexKey_data] at hd
    obtain ⟨_, hi⟩ := split_at_colon _ _ _ _ h1 h2 (List.append_cancel_left hd)
    exact hid (by simp [hi])

/-- The amended C15 for the entity `user`: the keys of users 7 and 8 differ,
and the key of user 7 is no index key. -/
theorem buildKey_injective_witness :
    BuildKey "user" (.int 7) = "cache:user:7"
    ∧ (BuildKey "user" (.int 7) = BuildKey "user" (.int 8) →
        "user" = "user" ∧ fmtV (.int 7) = fmtV (.int 8))
    ∧ BuildKey "user" (.int 7) ≠ BuildIndexKey "user" "email" (.str "a@example.com") :=
  ⟨(buildKey_injective "user" "user" "email" (.int 7) (.int 8) (.str "a@example.com")
      (by decide) (by decide)).1,
    (buildKey_injective "user" "user" "email" (.int 7) (.int 8) (.str "a@example.com")
      (by decide) (by decide)).2.1,
    (buildKey_injective "user" "user" "email" (.int 7) (.int 8) (.str "a@example.com")
      (by decide) (by decide)).2.2 (by decide)⟩

/-- C15 as stated fails: the entity name `user:count`, under which `CountUsers`
caches the user count with the identifier `count`, gives the same key as the
entity `user` with the identifier `count:count`, and the same key as the index
key of entity `user`, field `count` and value `count`. -/
theorem buildKey_injective_counterexample :
    BuildKey "user:count" (.str "count") = BuildKey "user" (.str "count:count")
    ∧ ("user:count", AnyVal.str "count") ≠ ("user", AnyVal.str "count:count")
    ∧ BuildKey "user:count" (.str "count") = BuildIndexKey "user" "count" (.str "count") := by
  decide

/-! ## Transactions -/

/-- C16 (transaction closed on every exit path).  When `BeginTx` fails its
error is returned and `fn` is not run: the result does not depend on `fn`.
After a successful `BeginTx`, with `w2` the world `fn` leaves: if `fn` returns
nil, `Commit` is called next and nothing else, and the result is that of
`Commit`; if `fn` returns an error, `Rollback` is called next and nothing else,
and the error of `fn` is returned; if `fn` panics, `Rollback` is called next
and the panic goes on.  In each case exactly one closing call is added to the
calls `fn` made. -/
theorem withTxOptions_closes (beginTx commit : Option GoError) (w : World)
    (fn : World → World × Run (Option GoError)) :
    (∀ e, beginTx = some e →
      ∀ g : World → World × Run (Option GoError),
        WithTxOptions beginTx commit w g = (w.emit .txBegin, .ok (some e)))
    ∧ (beginTx = none → ∀ w2, fn (w.emit .txBegin) = (w2, .ok none) →
        WithTxOptions beginTx commit w fn = (w2.emit .txCommit, .ok commit)
        ∧ (WithTxOptions beginTx commit w fn).1.log = w2.log ++ [.txCommit])
    ∧ (beginTx = none → ∀ w2 e, fn (w.emit .txBegin) = (w2, .ok (some e)) →
        WithTxOptions beginTx commit w fn = (w2.emit .txRollback, .ok (some e))
        ∧ (WithTxOptions beginTx commit w fn).1.log = w2.log ++ [.txRollback])
    ∧ (beginTx = none → ∀ w2 msg, fn (w.emit .txBegin) = (w2, .panic msg) →
        WithTxOptions beginTx commit w fn = (w2.emit .txRollback, .panic msg)
        ∧ (WithTxOptions beginTx commit w fn).1.log = w2.log ++ [.txRollback])
    ∧ (beginTx = none →
        (WithTxOptions beginTx commit w fn).1.log.count .txCommit
          + (WithTxOptions beginTx commit w fn).1.log.count .txRollback
        = (fn (w.emit .txBegin)).1.log.count .txCommit
          + (fn (w.emit .txBegin)).1.log.count .txRollback + 1) := by
  refine ⟨?_, ?_, ?_, ?_, ?_⟩
  · intro e hb g
    simp [WithTxOptions, hb]
  · intro hb w2 hfn
    simp [WithTxOptions, hb, hfn]
  · intro hb w2 e hfn
    simp [WithTxOptions, hb, hfn]
  · intro hb w2 msg hfn
    simp [WithTxOptions, hb, hfn]
  · intro hb
    rcases hfn : fn (w.emit .txBegin) with ⟨w2, r⟩
    rcases r with (_ | e) | msg
    · simp [WithTxOptions, hb, hfn]; omega
    · simp [WithTxOptions, hb, hfn]; omega
    · simp [WithTxOptions, hb, hfn]; omega

/-- C16 on three transactions: one whose function writes and succeeds while
`Commit` fails, one whose function fails, and one that cannot begin. -/
theorem withTxOptions_closes_witness :
    (WithTxOptions none (some (.other "commit failed")) emptyWorld
        (fun w => (w.emit .exec, .ok none)))
      = (⟨[], 0, 0, [.txBegin, .exec, .txCommit], []⟩, .ok (some (.other "commit failed")))
    ∧ (WithTxOptions none none emptyWorld
        (fun w => (w.emit .exec, .ok (some (.other "duplicate key")))))
      = (⟨[], 0, 0, [.txBegin, .exec, .txRollback], []⟩, .ok (some (.other "duplicate key")))
    ∧ (WithTxOptions (some (.other "too many connections")) none emptyWorld
        (fun w => (w.emit .exec, .ok none)))
      = (⟨[], 0, 0, [.txBegin], []⟩, .ok (some (.other "too many connections"))) :=
  ⟨((withTxOptions_closes none (some (.other "commit failed")) emptyWorld
      (fun w => (w.emit .exec, .ok none))).2.1 rfl _ rfl).1,
    ((withTxOptions_closes none none emptyWorld
      (fun w => (w.emit .exec, .ok (some (.other "duplicate key"))))).2.2.1 rfl _ _ rfl).1,
    (withTxOptions_closes (some (.other "too many connections")) none emptyWorld
      (fun w => (w.emit .exec, .ok none))).1 _ rfl _⟩

/-- C17, as amended (transactional write and the cache).  In `ExecInTx`, when
`fn` succeeds the delete of the primary key is issued after `fn` and before the
transaction is closed.  When that delete succeeds the transaction is committed
and the result is that of `Commit`; when it fails, its error is returned as the
error of the operation and the transaction is rolled back, not committed.  When
`fn` fails, no store command is issued and the transaction is rolled back with
the error of `fn`. -/
theorem execInTx_cache_then_close (net : Net) (commit : Option GoError) (w w2 : World)
    (entity : String) (id : AnyVal) (fn : World → World × Run (Option GoError))
    (r : Option GoError)
    (hfn : fn ((w.emit .txBegin).emit .txFn) = (w2, .ok r)) :
    (r = none → net w2.ops = none →
      (ExecInTx net none commit w entity id fn).2 = .ok commit
      ∧ (ExecInTx net none commit w entity id fn).1.log
          = w2.log ++ [.exec, .del [BuildKey entity id], .txCommit])
    ∧ (r = none → ∀ e, net w2.ops = some e →
      (ExecInTx net none commit w entity id fn).2 = .ok (some e)
      ∧ (ExecInTx net none commit w entity id fn).1.log
          = w2.log ++ [.exec, .del [BuildKey entity id], .txRollback])
    ∧ (∀ e, r = some e →
      (ExecInTx net none commit w entity id fn).2 = .ok (some e)
      ∧ (ExecInTx net none commit w entity id fn).1.log = w2.log ++ [.txRollback]
      ∧ (ExecInTx net none commit w entity id fn).1.ops = w2.ops
      ∧ (ExecInTx net none commit w entity id fn).1.entries = w2.entries) := by
  refine ⟨?_, ?_, ?_⟩
  · intro hr hn
    subst hr
    simp [ExecInTx, WithTx, WithTxOptions, hfn, ExecByID, World.Del, hn, RecordCacheDelete]
  · intro hr e hn
    subst hr
    simp [ExecInTx, WithTx, WithTxOptions, hfn, ExecByID, World.Del, hn, RecordCacheError]
  · intro e hr
    subst hr
    simp [ExecInTx, WithTx, WithTxOptions, hfn]

/-- The amended C17 for user 7 on a working store: write, delete, commit. -/
theorem execInTx_cache_then_close_witness :
    (ExecInTx netUp none none cachedWorld "user" (.int 7)
        (fun w => (w, .ok none))).2 = .ok none
    ∧ (ExecInTx netUp none none cachedWorld "user" (.int 7)
        (fun w => (w, .ok none))).1.log
      = [.txBegin, .txFn, .exec, .del ["cache:user:7"], .txCommit] :=
  (execInTx_cache_then_close netUp none cachedWorld
    ((cachedWorld.emit .txBegin).emit .txFn) "user" (.int 7) (fun w => (w, .ok none)) none
    rfl).1 rfl rfl

/-- C17 as stated fails: with `fn` succeeding and the store refusing the
delete, `ExecInTx` returns the store's error and rolls the transaction back
instead of committing it. -/
theorem execInTx_cache_then_close_counterexample :
    (ExecInTx netDown none none cachedWorld "user" (.int 7)
        (fun w => (w, .ok none))).2 = .ok (some (.other "dial tcp: connection refused"))
    ∧ (ExecInTx netDown none none cachedWorld "user" (.int 7)
        (fun w => (w, .ok none))).1.log
      = [.txBegin, .txFn, .exec, .del ["cache:user:7"], .txRollback] := by
  decide

/-! ## The task lock -/

/-- The lock is asked for with one `SETNX` on the key `lockPrefix + name`,
with the task's timeout as TTL, or the scheduler's lock TTL when the timeout
is zero. -/
theorem acquireLock_log (s : Scheduler) (net : Net) (w : World) (key : String) (ttl : Int) :
    (acquireLock s net w key ttl).2.log
      = w.log ++ [.setNX key (toString (w.now / 1000000000))
          (if ttl = 0 then s.lockTTL else ttl)] := by
  cases hn : net w.ops with
  | some e => simp [acquireLock, World.SetNX, hn]
  | none =>
    cases hr : w.read key <;> simp [acquireLock, World.SetNX, hn, hr]

/-- The release issues one `DEL` of the key. -/
theorem releaseLock_log (net : Net) (w : World) (key : String) :
    (releaseLock net w key).2.log = w.log ++ [.del [key]] := by
  cases hn : net w.ops <;> simp [releaseLock, World.Del, hn]

/-- C18 (distributed task lock).  `runTask` first issues one `SETNX` on the key
`lockPrefix + name` with the task's timeout as TTL, or the scheduler's lock TTL
when the timeout is zero.  When it reports that the key was created, `Run` is
called once and then the key is deleted with one `DEL`, whether `Run` returns
nil, returns an error or panics.  When it reports that the key exists, or
fails, nothing more happens: `Run` is not called and no `DEL` is issued. -/
theorem runTask_lock (s : Scheduler) (net : Net) (w w1 : World) (task : Task)
    (res : Except GoError Bool)
    (hacq : acquireLock s net w (s.lockPrefix ++ task.name) task.timeout = (res, w1)) :
    w1.log = w.log ++ [.setNX (s.lockPrefix ++ task.name) (toString (w.now / 1000000000))
        (if task.timeout = 0 then s.lockTTL else task.timeout)]
    ∧ (res = .ok true →
        (runTask s net w task).1.log = w1.log ++ [.run, .del [s.lockPrefix ++ task.name]])
    ∧ (res ≠ .ok true → (runTask s net w task) = (w1, .ok ())) := by
  have hlog := acquireLock_log s net w (s.lockPrefix ++ task.name) task.timeout
  rw [hacq] at hlog
  simp only at hlog
  have hno : res ≠ .ok true → runTask s net w task = (w1, .ok ()) := by
    intro hres
    cases res with
    | error e => simp [runTask, hacq]
    | ok b =>
      cases b with
      | false => simp [runTask, hacq]
      | true => exact absurd rfl hres
  refine ⟨hlog, ?_, hno⟩
  intro hres
  subst hres
  have hrel := releaseLock_log net ((w1.emit .run).advance task.elapsed)
    (s.lockPrefix ++ task.name)
  cases hrun : task.run <;> simp [runTask, hacq, hrun, hrel]

/-- C18 for the task `cleanup` with no timeout of its own, whose `Run` fails:
on an empty working store the lock is created with the default TTL of five
minutes, `Run` is called and the lock is deleted; while the lock is held
nothing but the `SETNX` happens. -/
theorem runTask_lock_witness :
    (runTask (NewScheduler "" 0) netUp emptyWorld
        ⟨"cleanup", 0, .ok (some (.other "disk full")), 1000⟩).1.log
      = [.setNX "task:lock:cleanup" "0" 300000000000, .run, .del ["task:lock:cleanup"]]
    ∧ (runTask (NewScheduler "" 0) netUp lockedWorld
        ⟨"cleanup", 0, .ok none, 1000⟩).1.log
      = [.setNX "task:lock:cleanup" "0" 300000000000] :=
  ⟨(runTask_lock (NewScheduler "" 0) netUp emptyWorld
      (acquireLock (NewScheduler "" 0) netUp emptyWorld "task:lock:cleanup" 0).2
      ⟨"cleanup", 0, .ok (some (.other "disk full")), 1000⟩ (.ok true) rfl).2.1 rfl,
    congrArg (fun r => r.1.log)
      ((runTask_lock (NewScheduler "" 0) netUp lockedWorld
        (acquireLock (NewScheduler "" 0) netUp lockedWorld "task:lock:cleanup" 0).2
        ⟨"cleanup", 0, .ok none, 1000⟩ (.ok false) rfl).2.2 (by simp))⟩

/-! ## Invalidation set of `UpdateUser` -/

/-- C20 (`UpdateUser` invalidation set).  When the old row is read and the
database write succeeds, `UpdateUser` issues exactly one store command, a
delete of the primary key `BuildKey("user", params.ID)` followed by the index
keys of the old email, the new email, the old username and the new username,
and when that delete succeeds exactly these keys are removed.  When the old
row cannot be read, or the write fails, no store command is issued and the
keyspace is unchanged. -/
theorem updateUser_invalidation (net : Net) (w : World) (params : UpdateUserParams)
    (old : UserRow) (e : GoError) :
    (UpdateUser net w params (.ok old) none).1.log
        = w.log ++ [.query, .exec, .del [
            BuildKey "user" (.int params.ID),
            BuildIndexKey "user" "email" (.str old.Email),
            BuildIndexKey "user" "email" (.str params.Email),
            BuildIndexKey "user" "username" (.str old.Username),
            BuildIndexKey "user" "username" (.str params.Username)]]
    ∧ (net w.ops = none →
        (UpdateUser net w params (.ok old) none).1.entries
          = erase [BuildKey "user" (.int params.ID),
              BuildIndexKey "user" "email" (.str old.Email),
              BuildIndexKey "user" "email" (.str params.Email),
              BuildIndexKey "user" "username" (.str old.Username),
              BuildIndexKey "user" "username" (.str params.Username)] w.entries)
    ∧ UpdateUser net w params (.error e) none
        = (w.emit .query, some (.wrap "repository: get old user: " e))
    ∧ UpdateUser net w params (.ok old) (some e) = ((w.emit .query).emit .exec, some e)
    ∧ ((w.emit .query).emit .exec).entries = w.entries
    ∧ ((w.emit .query).emit .exec).ops = w.ops := by
  refine ⟨?_, ?_, ?_, ?_, rfl, rfl⟩
  · cases hn : net w.ops with
    | none =>
      simp only [UpdateUser, ExecByIDWithIndexes, World.Del, emit_ops, hn,
        List.singleton_append, List.foldl_cons, List.foldl_nil]
      simp [RecordCacheDelete]
    | some e0 =>
      simp [UpdateUser, ExecByIDWithIndexes, World.Del, hn, RecordCacheError]
  · intro hn
    simp only [UpdateUser, ExecByIDWithIndexes, World.Del, emit_ops, hn,
      List.singleton_append, List.foldl_cons, List.foldl_nil]
    simp [RecordCacheDelete]
  · simp [UpdateUser]
  · simp [UpdateUser, ExecByIDWithIndexes]

/-- C20 for the update of user 7 from `alice` to `alicia` on a working store
that holds the primary entry of user 7. -/
theorem updateUser_invalidation_witness :
    (UpdateUser netUp cachedWorld ⟨7, "alicia", "alicia@example.com"⟩
        (.ok ⟨"alice", "alice@example.com"⟩) none).1.log
      = [.query, .exec, .del ["cache:user:7", "cache:user:email:alice@example.com",
          "cache:user:email:alicia@example.com", "cache:user:username:alice",
          "cache:user:username:alicia"]]
    ∧ (UpdateUser netUp cachedWorld ⟨7, "alicia", "alicia@example.com"⟩
        (.ok ⟨"alice", "alice@example.com"⟩) none).1.entries = [] :=
  ⟨(updateUser_invalidation netUp cachedWorld ⟨7, "alicia", "alicia@example.com"⟩
      ⟨"alice", "alice@example.com"⟩ .errNoRows).1,
    (updateUser_invalidation netUp cachedWorld ⟨7, "alicia", "alicia@example.com"⟩
      ⟨"alice", "alice@example.com"⟩ .errNoRows).2.1 rfl⟩

/-! ## Request validation -/

/-- C25 (`ValidatePagination` normalisation).  For all integers `page` and
`pageSize` the result `(p, s)` has `p ≥ 1` and `1 ≤ s ≤ 100`, where `p` is
`page` when `page > 0` and 1 otherwise, and `s` is 20 when `pageSize ≤ 0`, 100
when `pageSize > 100` and `pageSize` otherwise; and validating the result
again returns it unchanged. -/
theorem validatePagination_normalises (page pageSize : Int) :
    1 ≤ (ValidatePagination page pageSize).1
    ∧ 1 ≤ (ValidatePagination page pageSize).2
    ∧ (ValidatePagination page pageSize).2 ≤ 100
    ∧ (ValidatePagination page pageSize).1 = (if page > 0 then page else 1)
    ∧ (ValidatePagination page pageSize).2
        = (if pageSize ≤ 0 then 20 else if pageSize > 100 then 100 else pageSize)
    ∧ ValidatePagination (ValidatePagination page pageSize).1
        (ValidatePagination page pageSize).2 = ValidatePagination page pageSize := by
  unfold ValidatePagination
  by_cases h1 : page ≤ 0 <;> by_cases h2 : pageSize ≤ 0 <;> by_cases h3 : pageSize > 100 <;>
    simp [h1, h2, h3] <;> omega

/-- C26 (`ValidateID` acceptance).  `ValidateID` returns `(n, true)` exactly
when the parameter parses as a base-10 `int64` `n` with `n > 0`, and returns
`(0, false)` in every other case; the cases of the test table, and a number
beyond `int64`, come out as the table says. -/
theorem validateID_accepts :
    (∀ (s : String) (n : Int),
      ValidateID s = (n, true) ↔ (ParseInt s = (n, true) ∧ 0 < n))
    ∧ (∀ s : String, (¬ ∃ n, ParseInt s = (n, true) ∧ 0 < n) → ValidateID s = (0, false))
    ∧ ValidateID "123" = (123, true)
    ∧ ValidateID "1" = (1, true)
    ∧ ValidateID "0" = (0, false)
    ∧ ValidateID "-1" = (0, false)
    ∧ ValidateID "abc" = (0, false)
    ∧ ValidateID "12.3" = (0, false)
    ∧ ValidateID "" = (0, false)
    ∧ ValidateID "9223372036854775807" = (9223372036854775807, true)
    ∧ ValidateID "9223372036854775808" = (0, false) := by
  refine ⟨?_, ?_, by decide, by decide, by decide, by decide, by decide, by decide, by decide,
    by decide, by decide⟩
  · intro s n
    rcases hp : ParseInt s with ⟨id, ok⟩
    cases ok with
    | false => simp [ValidateID, hp]
    | true =>
      by_cases hid : id ≤ 0
      · simp [ValidateID, hp, hid]
        intro h
        omega
      · simp [ValidateID, hp, hid]
        intro h
        omega
  · intro s hno
    rcases hp : ParseInt s with ⟨id, ok⟩
    cases ok with
    | false => simp [ValidateID, hp]
    | true =>
      by_cases hid : id ≤ 0
      · simp [ValidateID, hp, hid]
      · exact absurd ⟨id, hp, by omega⟩ hno

/-! ## Offset and limit of list requests -/

/-- C27 at the request `?offset=15&limit=10`: `GetPagination` keeps the offset
15 in the field `Offset`, but `GetOffset` is computed from the page number
`15 / 10 + 1 = 2` and returns 10; `GetLimit` returns the requested 10. -/
theorem getPagination_offset_rounded :
    GetPagination "" "" "15" "10" = ⟨2, 10, 15, 10⟩
    ∧ (GetPagination "" "" "15" "10").GetOffset = 10
    ∧ (GetPagination "" "" "15" "10").Offset = 15
    ∧ (GetPagination "" "" "15" "10").GetLimit = 10 := by
  decide

/-- In offset and limit mode `GetLimit` is the requested limit clamped to
1..100 (10 when it is absent or below 1), and `GetOffset` is the requested
offset rounded down to a multiple of that limit. -/
theorem getPagination_offset_mode (offsetQ limitQ : String)
    (hoff : 0 ≤ Atoi offsetQ) (hmax : Atoi offsetQ < 2 ^ 31) :
    (GetPagination "" "" offsetQ limitQ).GetLimit
        = (if Atoi limitQ < 1 then 10 else if Atoi limitQ > 100 then 100 else Atoi limitQ)
    ∧ (GetPagination "" "" offsetQ limitQ).GetOffset
        = Atoi offsetQ / (GetPagination "" "" offsetQ limitQ).GetLimit
            * (GetPagination "" "" offsetQ limitQ).GetLimit := by
  have hz : Atoi "" = 0 := by decide
  generalize hL : (if Atoi limitQ < 1 then (10 : Int)
    else if Atoi limitQ > 100 then 100 else Atoi limitQ) = lim
  have hl1 : 1 ≤ lim := by
    rw [← hL]; split
    · omega
    · split <;> omega
  have hl2 : lim ≤ 100 := by
    rw [← hL]; split
    · omega
    · split <;> omega
  have hq : Int.tdiv (Atoi offsetQ) lim = Atoi offsetQ / lim :=
    Int.tdiv_eq_ediv hoff (by omega)
  have hq0 : 0 ≤ Atoi offsetQ / lim := Int.ediv_nonneg hoff (by omega)
  have hq1 : Atoi offsetQ / lim ≤ Atoi offsetQ := Int.ediv_le_self _ hoff
  have hm : Atoi offsetQ / lim * lim ≤ Atoi offsetQ := Int.ediv_mul_le _ (by omega)
  have hm0 : 0 ≤ Atoi offsetQ / lim * lim := Int.mul_nonneg hq0 (by omega)
  have hno : ¬ Atoi offsetQ < 0 := by omega
  have hw1 : wrapInt64 (Atoi offsetQ / lim + 1) = Atoi offsetQ / lim + 1 := by
    unfold wrapInt64; omega
  have hw2 : wrapInt64 (Atoi offsetQ / lim + 1 - 1) = Atoi offsetQ / lim := by
    unfold wrapInt64; omega
  have hw3 : wrapInt64 (Atoi offsetQ / lim * lim) = Atoi offsetQ / lim * lim := by
    unfold wrapInt64; omega
  have hw4 : wrapInt32 (Atoi offsetQ / lim * lim) = Atoi offsetQ / lim * lim := by
    unfold wrapInt32; omega
  have hw5 : wrapInt32 lim = lim := by
    unfold wrapInt32; omega
  simp only [GetPagination, hz, PaginationRequest.GetLimit, PaginationRequest.GetOffset,
    gt_iff_lt, lt_self_iff_false, or_self, if_false, ge_iff_le, hoff, true_or, if_true, hno,
    hL, hq, hw1, hw2, hw3, hw4, hw5]
  simp

/-! ## Roles and permissions -/

/-- C29 at the roles `moderator` and `user`: the moderator has the higher
level, yet `content:write` is granted to the user and not to the moderator, by
`hasImplicitPermission` and so by `HasPermission` for claims without explicit
permissions. -/
theorem moderator_lacks_content_write :
    (RBACClaims.mk 1 RoleModerator []).GetRoleLevel > (RBACClaims.mk 2 RoleUser []).GetRoleLevel
    ∧ (RBACClaims.mk 1 RoleModerator []).HasHigherRoleThan RoleUser = true
    ∧ (RBACClaims.mk 2 RoleUser []).hasImplicitPermission PermissionContentWrite = true
    ∧ (RBACClaims.mk 1 RoleModerator []).hasImplicitPermission PermissionContentWrite = false
    ∧ (RBACClaims.mk 2 RoleUser []).HasPermission PermissionContentWrite = true
    ∧ (RBACClaims.mk 1 RoleModerator []).HasPermission PermissionContentWrite = false := by
  decide

/-- The super administrator is granted every permission, and the
administrator every permission but `system:config`. -/
theorem superAdmin_has_all (id : Int) (explicit : List String) (permission : String) :
    (RBACClaims.mk id RoleSuperAdmin explicit).hasImplicitPermission permission = true
    ∧ (RBACClaims.mk id RoleSuperAdmin explicit).HasPermission permission = true
    ∧ (permission ≠ PermissionSystemConfig →
        (RBACClaims.mk id RoleAdmin []).hasImplicitPermission permission = true) := by
  refine ⟨by simp [RBACClaims.hasImplicitPermission], by simp [RBACClaims.HasPermission], ?_⟩
  intro h
  have hne : RoleAdmin ≠ RoleSuperAdmin := by decide
  simp [RBACClaims.hasImplicitPermission, hne, h]

/-- Apart from the pair of moderator and user, a role of a higher level is
granted every permission of a role of a lower level: the guest's permissions
are among the user's and the moderator's, and the user's and the moderator's
are among the administrator's. -/
theorem implicit_permissions_inherited (permission : String) :
    ((RBACClaims.mk 0 RoleGuest []).hasImplicitPermission permission = true →
      (RBACClaims.mk 0 RoleUser []).hasImplicitPermission permission = true
      ∧ (RBACClaims.mk 0 RoleModerator []).hasImplicitPermission permission = true)
    ∧ ((RBACClaims.mk 0 RoleUser []).hasImplicitPermission permission = true →
      (RBACClaims.mk 0 RoleAdmin []).hasImplicitPermission permission = true)
    ∧ ((RBACClaims.mk 0 RoleModerator []).hasImplicitPermission permission = true →
      (RBACClaims.mk 0 RoleAdmin []).hasImplicitPermission permission = true) := by
  have h1 : RoleGuest ≠ RoleSuperAdmin := by decide
  have h2 : RoleGuest ≠ RoleAdmin := by decide
  have h3 : RoleGuest ≠ RoleModerator := by decide
  have h4 : RoleGuest ≠ RoleUser := by decide
  have h5 : RoleUser ≠ RoleSuperAdmin := by decide
  have h6 : RoleUser ≠ RoleAdmin := by decide
  have h7 : RoleUser ≠ RoleModerator := by decide
  have h8 : RoleModerator ≠ RoleSuperAdmin := by decide
  have h9 : RoleModerator ≠ RoleAdmin := by decide
  have h10 : RoleAdmin ≠ RoleSuperAdmin := by decide
  have c1 : PermissionContentRead ≠ PermissionSystemConfig := by decide
  have c2 : PermissionContentWrite ≠ PermissionSystemConfig := by decide
  have c3 : PermissionUserRead ≠ PermissionSystemConfig := by decide
  have c4 : PermissionContentAudit ≠ PermissionSystemConfig := by decide
  refine ⟨?_, ?_, ?_⟩
  · intro h
    simp [RBACClaims.hasImplicitPermission, h1, h2, h3, h4] at h
    simp [RBACClaims.hasImplicitPermission, h5, h6, h7, h8, h9, h]
  · intro h
    simp [RBACClaims.hasImplicitPermission, h5, h6, h7] at h
    simp only [RBACClaims.hasImplicitPermission, h10, if_false, if_true, decide_eq_true_eq]
    rcases h with (h | h) | h <;> rw [h] <;> assumption
  · intro h
    simp [RBACClaims.hasImplicitPermission, h8, h9] at h
    simp only [RBACClaims.hasImplicitPermission, h10, if_false, if_true, decide_eq_true_eq]
    rcases h with (h | h) | h <;> rw [h] <;> assumption

/-! ## Refresh of an expired token -/

/-- C28 at an expired token: for every manager, time and claims of a token
whose signature is valid and whose only failure is expiry, `ValidateToken`
returns nil claims with `ErrExpiredToken`, and `RefreshToken` goes on to read
the user id through the nil claims and panics; it returns no token.  The same
holds for `RBACJWTManager.RefreshToken`, which also panics on a token refused
for any other reason. -/
theorem refreshToken_expired_panics {T : Type} (m : JWTManager T) (rm : RBACJWTManager)
    (now : Int) (claims : Claims T) (rclaims : RBACTokenClaims) (err : GoError) :
    m.ValidateToken (.expired claims) = (none, some ErrExpiredToken)
    ∧ m.RefreshToken now (.expired claims)
        = .panic "invalid memory address or nil pointer dereference"
    ∧ rm.RefreshToken now (.expired rclaims)
        = .panic "invalid memory address or nil pointer dereference"
    ∧ rm.RefreshToken now (.invalid err)
        = .panic "invalid memory address or nil pointer dereference"
    ∧ m.RefreshToken now (.valid claims) = .ok (m.GenerateToken now claims.UserID) := by
  refine ⟨rfl, ?_, ?_, ?_, ?_⟩
  · simp [JWTManager.RefreshToken, JWTManager.ValidateToken, errorsIs, ErrExpiredToken]
  · simp [RBACJWTManager.RefreshToken, RBACJWTManager.ValidateToken]
  · simp [RBACJWTManager.RefreshToken, RBACJWTManager.ValidateToken]
  · simp [JWTManager.RefreshToken, JWTManager.ValidateToken]

/-! ## Business errors and HTTP statuses -/

/-- C24, as amended (business error to HTTP status).  For a business error
with code `c`, `Error` writes the status `getHTTPStatus(c)` and the body code
`c`; every other error is written as the internal error, with status 500 and
body code 50001.  `getHTTPStatus` maps `InvalidParams` and `InvalidPassword`
to 400, `Unauthorized` to 401, `Forbidden` to 403, `NotFound` to 404,
`AlreadyExists` to 409, `TooManyRequests` to 429 and the code `OK` to 200;
every other code, the 50xxx codes among them, gives 500. -/
theorem error_status_mapping (debugMode : Bool) (c : Int) (message msg : String)
    (inner : AppError) (err : GoError) :
    (Error debugMode (.biz c message)).1 = getHTTPStatus c
    ∧ (Error debugMode (.biz c message)).2.Code = c
    ∧ (Error debugMode (.bizWrap c message inner)).1 = getHTTPStatus c
    ∧ (Error debugMode (.bizWrap c message inner)).2.Code = c
    ∧ (Error debugMode (.plain err)).1 = 500
    ∧ (Error debugMode (.plain err)).2.Code = CodeInternalError
    ∧ (Error debugMode (.wrap msg inner)).1 = 500
    ∧ (Error debugMode (.wrap msg inner)).2.Code = CodeInternalError
    ∧ getHTTPStatus CodeInvalidParams = 400
    ∧ getHTTPStatus CodeInvalidPassword = 400
    ∧ getHTTPStatus CodeUnauthorized = 401
    ∧ getHTTPStatus CodeForbidden = 403
    ∧ getHTTPStatus CodeNotFound = 404
    ∧ getHTTPStatus CodeAlreadyExists = 409
    ∧ getHTTPStatus CodeTooManyRequests = 429
    ∧ getHTTPStatus CodeOK = 200
    ∧ ((c ≠ CodeOK ∧ ¬ (10001 ≤ c ∧ c ≤ 10007)) → getHTTPStatus c = 500)
    ∧ ((50000 ≤ c ∧ c ≤ 59999) → getHTTPStatus c = 500) := by
  have hmain : (c ≠ CodeOK ∧ ¬ (10001 ≤ c ∧ c ≤ 10007)) → getHTTPStatus c = 500 := by
    intro h
    obtain ⟨h0, h1⟩ := h
    simp only [CodeOK] at h0
    have e1 : c ≠ 10001 := by omega
    have e2 : c ≠ 10002 := by omega
    have e3 : c ≠ 10003 := by omega
    have e4 : c ≠ 10004 := by omega
    have e5 : c ≠ 10005 := by omega
    have e6 : c ≠ 10006 := by omega
    have e7 : c ≠ 10007 := by omega
    simp [getHTTPStatus, CodeOK, CodeInvalidParams, CodeUnauthorized, CodeForbidden,
      CodeNotFound, CodeAlreadyExists, CodeTooManyRequests, CodeInvalidPassword, h0, e1, e2, e3,
      e4, e5, e6, e7]
  refine ⟨rfl, rfl, rfl, rfl, rfl, rfl, rfl, rfl, by decide, by decide, by decide,
    by decide, by decide, by decide, by decide, by decide, hmain, ?_⟩
  intro h
  exact hmain ⟨by simp only [CodeOK]; omega, by omega⟩

/-- C24 as stated fails: a business error that carries the code `OK` is not
among the listed codes, yet `Error` writes the status 200 for it, not 500. -/
theorem error_status_mapping_counterexample :
    (Error false (.biz CodeOK "success")).1 = 200
    ∧ (Error false (.biz CodeOK "success")).2.Code = CodeOK
    ∧ CodeOK ≠ CodeInvalidParams ∧ CodeOK ≠ CodeInvalidPassword ∧ CodeOK ≠ CodeUnauthorized
    ∧ CodeOK ≠ CodeForbidden ∧ CodeOK ≠ CodeNotFound ∧ CodeOK ≠ CodeAlreadyExists
    ∧ CodeOK ≠ CodeTooManyRequests := by
  decide

/-! ## Values returned with a nil error -/

/-- C30 at a corrupt entry whose delete fails: the store holds for user 7 a
string that does not decode, the first read and the double check succeed and
the delete between them fails.  `TakeByID` then takes the corrupt string from
the double check, drops the error of decoding it, and returns the zero value
with a nil error; the loader, which would have returned `alice`, is not
called. -/
theorem takeByID_silent_zero :
    corruptWorld.read (BuildKey "user" (.int 7)) = some "!garbage"
    ∧ strCodec.unmarshal "!garbage" strCodec.zero = ("", false)
    ∧ (TakeByID strCodec netSecondDown corruptWorld "user" (.int 7) (5 * Minute) 1 2
        (.ok "alice")).2 = .ok (strCodec.zero, none)
    ∧ (TakeByID strCodec netSecondDown corruptWorld "user" (.int 7) (5 * Minute) 1 2
        (.ok "alice")).1.log
      = [.get "cache:user:7", .del ["cache:user:7"], .get "cache:user:7"] := by
  refine ⟨by decide, rfl, rfl, by decide⟩

/-- A loaded value that cannot be encoded is stored as the empty string, and
when the empty string does not decode the call returns the variable as it was,
the zero value, with a nil error. -/
theorem takeByID_unencodable {T : Type} (c : Codec T) (net : Net) (w : World)
    (entity : String) (id : AnyVal) (baseTTL : Int) (r1 r2 : Nat) (v : T)
    (habs : w.read (BuildKey entity id) = none)
    (httl : baseTTL ≤ 0 ∨ 5 ≤ baseTTL)
    (hm : c.marshal v = none)
    (hempty : c.unmarshal "" c.zero = (c.zero, false)) :
    (TakeByID c net w entity id baseTTL r1 r2 (.ok v)).2 = .ok (c.zero, none) := by
  obtain ⟨ttl, hj⟩ := getJitterTTL_returns baseTTL r1 r2 httl
  rw [(takeByID_absent_loaded c net w entity id baseTTL r1 r2 v ttl habs hj).1]
  simp [hitResult, hm, hempty, NotFoundPlaceholder]

/-! ## The cached user count -/

/-- C21 at a count followed by a successful `CreateUser`: `CountUsers` stores
the count under `cache:user:count:count`, `CreateUser` deletes
`cache:user:count:total`, the key `DeleteUser` also lists, so the stored count
is still readable after the insert and the next `CountUsers` returns the old
count 5 after one read, without the query that would return 6. -/
theorem countUsers_stale_after_create :
    BuildKey "user:count" (.str "count") = "cache:user:count:count"
    ∧ BuildKey "user:count" (.str "total") = "cache:user:count:total"
    ∧ (CountUsers int64Codec netUp emptyWorld 1 2 (.ok 5)).2 = .ok (5, none)
    ∧ (CreateUser (userCodec [aliceUser]) netUp countedWorld none (.ok 1) 3 4
        (.ok aliceRow)).2 = .ok (aliceUser, none)
    ∧ Event.del ["cache:user:count:total"] ∈ createdWorld.log
    ∧ createdWorld.read "cache:user:count:count" = some "5"
    ∧ (CountUsers int64Codec netUp createdWorld 5 6 (.ok 6)).2 = .ok (5, none)
    ∧ (CountUsers int64Codec netUp createdWorld 5 6 (.ok 6)).1.log
        = createdWorld.log ++ [.get "cache:user:count:count"]
    ∧ (DeleteUser netUp createdWorld 1 (.ok ⟨"alice", "alice@example.com"⟩) none).1.read
        "cache:user:count:count" = some "5" := by
  refine ⟨by decide, by decide, ?_, ?_, ?_, ?_, ?_, ?_, ?_⟩
  · rfl
  · rfl
  · decide
  · decide
  · rfl
  · decide
  · decide

/-- The key that the writes delete is never the key of the cached count:
after the delete of `CreateUser`, whatever the store held under the count key
is still there. -/
theorem createUser_keeps_count_key (net : Net) (w : World) :
    BuildKey "user:count" (.str "total") ≠ BuildKey "user:count" (.str "count")
    ∧ (ExecByID net w "user:count" (.str "total") none).1.read
        (BuildKey "user:count" (.str "count"))
      = w.read (BuildKey "user:count" (.str "count")) := by
  have hne : BuildKey "user:count" (.str "count") ∉ [BuildKey "user:count" (.str "total")] := by
    decide
  refine ⟨by decide, ?_⟩
  cases hn : net w.ops with
  | some e => simp [ExecByID, World.Del, hn, RecordCacheError]
  | none =>
    simp only [ExecByID, World.Del, emit_ops, hn, RecordCacheDelete, read_count]
    simp only [World.read]
    rw [show find (BuildKey "user:count" (.str "count"))
        (erase [BuildKey "user:count" (.str "total")] (w.emit .exec).entries)
        = find (BuildKey "user:count" (.str "count")) w.entries from
      find_erase_not_mem _ _ _ hne]
    rfl

/-! ## The user service -/

/-- C22 for user 1, whose stored hash matches the old password
`password123`: `GetUserByID` of the repository returns the record with an
empty password, since its loader passes the empty string to `rowToUser`; the
comparison of the empty hash with the old password fails, and `ChangePassword`
returns `ErrInvalidPassword` without calling `UpdateUserPassword`.  With a
record that carries the stored hash, as the mock of the test returns it, the
same call updates the password once and returns nil. -/
theorem changePassword_rejects_correct_password :
    toyBcrypt.CompareHashAndPassword "$2a$10$password123" "password123" = true
    ∧ (GetUserByID (userCodec [aliceUser]) netUp emptyWorld 1 1 2 (.ok aliceRow)).2
        = .ok (aliceUser, none)
    ∧ aliceUser.Password = ""
    ∧ ChangePassword toyBcrypt (.ok aliceUser) (fun _ => none)
        ⟨1, "password123", "newpassword456"⟩
      = ([.GetUserByID 1], some ErrInvalidPassword)
    ∧ ChangePassword toyBcrypt (.ok { aliceUser with Password := "$2a$10$password123" })
        (fun _ => none) ⟨1, "password123", "newpassword456"⟩
      = ([.GetUserByID 1, .UpdateUserPassword 1 "$2a$10$newpassword456"], none) := by
  refine ⟨by decide, rfl, rfl, by decide, by decide⟩

/-- Whatever the hash functions are, a record with an empty password makes
`ChangePassword` return `ErrInvalidPassword` as soon as the empty hash matches
no password, as with bcrypt, which refuses a hash that is too short. -/
theorem changePassword_empty_hash (b : Bcrypt) (user : User)
    (updateUserPassword : String → Option GoError) (input : ChangePasswordInput)
    (hold : input.OldPassword ≠ "") (hnew : input.NewPassword ≠ "")
    (hpw : user.Password = "")
    (hshort : b.CompareHashAndPassword "" input.OldPassword = false) :
    ChangePassword b (.ok user) updateUserPassword input
      = ([.GetUserByID input.UserID], some ErrInvalidPassword) := by
  simp [ChangePassword, hold, hnew, hpw, hshort]

/-- C23 (`Register` rejects duplicates).  For an input with non-empty
username, email and password: when the lookup by email finds a user with a
positive id, `Register` returns `ErrUserExists` after that lookup alone; when
it does not and the lookup by username finds one, `Register` returns
`ErrUserExists` after the two lookups; in both cases `CreateUser` is not
called.  When neither lookup finds a user and the password is hashed to `h`,
the calls are the two lookups and one `CreateUser` with the given username and
email and the password `h`, which differs from the plaintext whenever the hash
does. -/
theorem register_rejects_duplicates (b : Bcrypt)
    (getUserByEmail getUserByUsername : Except GoError User)
    (createUser : CreateUserParams → Except GoError User) (input : RegisterInput)
    (hu : input.Username ≠ "") (he : input.Email ≠ "") (hp : input.Password ≠ "") :
    (∀ u, getUserByEmail = .ok u → 0 < u.ID →
      Register b getUserByEmail getUserByUsername createUser input
        = ([.GetUserByEmail input.Email], (User.zero, some ErrUserExists)))
    ∧ (∀ u, (¬ ∃ v, getUserByEmail = .ok v ∧ 0 < v.ID) → getUserByUsername = .ok u →
      0 < u.ID →
      Register b getUserByEmail getUserByUsername createUser input
        = ([.GetUserByEmail input.Email, .GetUserByUsername input.Username],
            (User.zero, some ErrUserExists)))
    ∧ (∀ h, (¬ ∃ v, getUserByEmail = .ok v ∧ 0 < v.ID) →
      (¬ ∃ v, getUserByUsername = .ok v ∧ 0 < v.ID) →
      b.GenerateFromPassword input.Password = .ok h →
      (Register b getUserByEmail getUserByUsername createUser input).1
        = [.GetUserByEmail input.Email, .GetUserByUsername input.Username,
            .CreateUser ⟨input.Username, input.Email, h, none⟩]
      ∧ (h ≠ input.Password →
          (CreateUserParams.mk input.Username input.Email h none).Password
            ≠ input.Password)) := by
  have hnot : ∀ r : Except GoError User, (¬ ∃ v, r = .ok v ∧ 0 < v.ID) →
      (match r with
        | .ok existingUser => decide (existingUser.ID > 0)
        | .error _ => false) = false := by
    intro r hr
    cases r with
    | error e => rfl
    | ok v =>
      have : ¬ 0 < v.ID := fun hv => hr ⟨v, rfl, hv⟩
      simp [this]
  refine ⟨?_, ?_, ?_⟩
  · intro u hfound hid
    simp [Register, hu, he, hp, hfound, hid]
  · intro u hno hfound hid
    have h1 := hnot getUserByEmail hno
    simp only [Register, hu, he, hp, or_self, if_false, h1]
    simp [hfound, hid]
  · intro h hno1 hno2 hhash
    have h1 := hnot getUserByEmail hno1
    have h2 := hnot getUserByUsername hno2
    refine ⟨?_, fun hne => hne⟩
    simp only [Register, hu, he, hp, or_self, if_false, h1, h2, hhash]
    cases createUser ⟨input.Username, input.Email, h, none⟩ <;> simp

/-- C23 for the registration of `bob`: an address already taken is refused
after one lookup, and a free name and address lead to one `CreateUser` with the
hashed password. -/
theorem register_rejects_duplicates_witness :
    Register toyBcrypt (.ok aliceUser) (.error .errNoRows) (fun _ => .ok aliceUser)
        ⟨"bob", "alice@example.com", "secret"⟩
      = ([.GetUserByEmail "alice@example.com"], (User.zero, some ErrUserExists))
    ∧ (Register toyBcrypt (.error .errNoRows) (.error .errNoRows) (fun _ => .ok aliceUser)
        ⟨"bob", "bob@example.com", "secret"⟩).1
      = [.GetUserByEmail "bob@example.com", .GetUserByUsername "bob",
          .CreateUser ⟨"bob", "bob@example.com", "$2a$10$secret", none⟩] :=
  ⟨(register_rejects_duplicates toyBcrypt (.ok aliceUser) (.error .errNoRows)
      (fun _ => .ok aliceUser) ⟨"bob", "alice@example.com", "secret"⟩
      (by decide) (by decide) (by decide)).1 aliceUser rfl (by decide),
    ((register_rejects_duplicates toyBcrypt (.error .errNoRows) (.error .errNoRows)
      (fun _ => .ok aliceUser) ⟨"bob", "bob@example.com", "secret"⟩
      (by decide) (by decide) (by decide)).2.2 "$2a$10$secret"
      (by simp) (by simp) rfl).1⟩

end GinDemo
